import Mathlib

/-!
# citybot: the pothole conversation bot (`src/main.go`)

A shallow embedding of the handlers of `main.go` and the properties of its
per-user conversation state.

Modelling conventions.

* The process-wide `state map[string]string` is a finite map read as a function
  `String → Option String` (`none` = key absent).
* A Go function with effects is a function `State → Result α`: it returns the
  outcome (a normal return or a Go panic), the store it leaves behind, and the
  list of effects it performed, in program order (mutex operations, map
  operations, collaborator calls).
* The collaborators (`session.Predict(..).Do()`, `bot.GetProfile`) are an
  environment `Env` of functions giving the result of the call.
* `interface{}` payloads decoded from JSON are the type `Iface`.
* A Go pointer that may be nil is an `Option`.
* A floating-point value is its format (`float32` or `float64`) and what it
  holds: a finite value, given by the rational it denotes exactly, an infinity
  or a NaN. `concept.Value > 0.8` compares with the constant `0.8` converted to
  the format of `Value`, that is with the value of the format nearest to 0.8.
* Writes to standard output (`fmt.Printf`, `fmt.Println`) are not modelled.
-/

namespace Citybot

/-! ## Data model -/

/-- A value of Go type `interface{}` as produced by JSON decoding. -/
inductive Iface where
  | null
  | str (s : String)
  | num (q : ℚ)
  | bool (b : Bool)
  | arr (xs : List Iface)
  | obj (fields : List (String × Iface))

/-- Record `fbbot.Attachment`: a type tag and an untyped payload. -/
structure Attachment where
  Typ : String
  Payload : Iface

/-- Record `fbbot.ReceivedMessage`; `Attachments` is a slice of pointers. -/
structure ReceivedMessage where
  Text : String
  Attachments : List (Option Attachment)

/-- The sender part of `fbbot.MessageOpts`. -/
structure Sender where
  ID : String

/-- Record `fbbot.MessageOpts`, of which the handlers read `Sender.ID`. -/
structure MessageOpts where
  Sender : Sender

/-- The two floating-point formats of Go. -/
inductive FloatFormat where
  | float32
  | float64
  deriving DecidableEq

/-- The number of significand bits of a format. -/
def FloatFormat.precision : FloatFormat → Nat
  | FloatFormat.float32 => 24
  | FloatFormat.float64 => 53

/-- What a floating-point variable holds: a finite value, given by the rational
it denotes exactly, an infinity, or a NaN. -/
inductive FloatValue where
  | finite (exact : ℚ)
  | posInf
  | negInf
  | nan

/-- A Go floating-point value with its format. The declaration of the field
`Value` of a concept belongs to the classifier library, so the format comes with
the value. -/
structure GoFloat where
  format : FloatFormat
  value : FloatValue

/-- The untyped constant `0.8` converted to a format: the value of the format
nearest to 0.8. As 0.8 lies between 1/2 and 1, the values of a format with a
significand of `p` bits are there the multiples of `1 / 2 ^ p`. -/
def floatConst08 (fmt : FloatFormat) : ℚ :=
  (round ((4 / 5 : ℚ) * 2 ^ fmt.precision) : ℤ) / 2 ^ fmt.precision

/-- The comparison `x > y` of Go on floating-point values: false when an operand
is a NaN, the order of the extended reals otherwise. -/
def FloatValue.gt : FloatValue → FloatValue → Bool
  | FloatValue.nan, _ => false
  | _, FloatValue.nan => false
  | FloatValue.negInf, _ => false
  | FloatValue.posInf, FloatValue.posInf => false
  | FloatValue.posInf, _ => true
  | FloatValue.finite _, FloatValue.posInf => false
  | FloatValue.finite _, FloatValue.negInf => true
  | FloatValue.finite x, FloatValue.finite y => decide (x > y)

/-- The finite values of a format among the rationals, the range of the exponent
left unbounded: a significand of at most `precision` bits times a power of two,
with a sign. -/
def FloatFormat.represents (fmt : FloatFormat) (q : ℚ) : Prop :=
  ∃ (m : ℕ) (e : ℤ), m < 2 ^ fmt.precision ∧ (q = m * 2 ^ e ∨ q = -(m * 2 ^ e))

/-- A labelled concept of a classifier output. -/
structure Concept where
  Name : String
  Value : GoFloat

/-- The `Data` field of a classifier output. -/
structure Data where
  Concepts : List Concept

/-- One output of a classifier response. -/
structure Output where
  Data : Data

/-- The classifier response `resp`. -/
structure Response where
  Outputs : List Output

/-- The profile returned by `bot.GetProfile`. -/
structure Profile where
  FirstName : String

/-- The collaborators: the result `(resp, err)` of `session.Predict(data).Do()`
for a model name and an image url, and the result `(profile, err)` of
`bot.GetProfile(id)`. `Except.error e` stands for `err != nil` with message `e`. -/
structure Env where
  predict : String → String → Except String Response
  getProfile : String → Except String Profile

/-- The global `state map[string]string`. -/
abbrev State := String → Option String

/-- The map made by `state = make(map[string]string)` in `main`. -/
def emptyState : State := fun _ => none

/-- Observable effects of the handlers, in program order. -/
inductive Effect where
  | lock
  | unlock
  | mapRead (key : String)
  | mapInsert (key : String) (value : String)
  | mapDelete (key : String)
  | predict (model : String) (url : String)
  | getProfile (id : String)
  | sendText (recipient : String) (text : String)
  deriving DecidableEq

/-- How a Go function call ends: it returns a value or it panics. -/
inductive Outcome (α : Type) where
  | ret (a : α)
  | panic (reason : String)
  deriving DecidableEq

/-- What a call leaves behind: its outcome, the store and the effects performed. -/
structure Result (α : Type) where
  outcome : Outcome α
  state : State
  trace : List Effect

/-- Effectful Go code over the global store. -/
def Go (α : Type) : Type := State → Result α

/-- Normal return without effect. -/
def Go.pure {α : Type} (a : α) : Go α := fun s => ⟨Outcome.ret a, s, []⟩

/-- Sequencing: a panic of the first part skips the second. -/
def Go.bind {α β : Type} (m : Go α) (f : α → Go β) : Go β := fun s =>
  match m s with
  | ⟨Outcome.ret a, s1, t1⟩ =>
    match f a s1 with
    | ⟨o, s2, t2⟩ => ⟨o, s2, t1 ++ t2⟩
  | ⟨Outcome.panic r, s1, t1⟩ => ⟨Outcome.panic r, s1, t1⟩

instance : Monad Go where
  pure := Go.pure
  bind := Go.bind

/-- A run-time panic. -/
def Go.panic {α : Type} (reason : String) : Go α := fun s => ⟨Outcome.panic reason, s, []⟩

/-- Perform one effect that does not touch the store. -/
def emit (e : Effect) : Go Unit := fun s => ⟨Outcome.ret (), s, [e]⟩

/-- The read `_, ok := state[id]`. -/
def mapRead (id : String) : Go Bool := fun s => ⟨Outcome.ret (s id).isSome, s, [Effect.mapRead id]⟩

/-- The assignment `state[id] = v`. -/
def mapInsert (id v : String) : Go Unit := fun s =>
  ⟨Outcome.ret (), Function.update s id (some v), [Effect.mapInsert id v]⟩

/-- The statement `delete(state, id)`. -/
def mapDelete (id : String) : Go Unit := fun s =>
  ⟨Outcome.ret (), Function.update s id none, [Effect.mapDelete id]⟩

/-- The call `session.Predict(data).Do()` on one image url with the model set. -/
def predictDo (env : Env) (model url : String) : Go (Except String Response) := fun s =>
  ⟨Outcome.ret (env.predict model url), s, [Effect.predict model url]⟩

/-- The call `bot.GetProfile(id)`. -/
def getProfile (env : Env) (id : String) : Go (Except String Profile) := fun s =>
  ⟨Outcome.ret (env.getProfile id), s, [Effect.getProfile id]⟩

/-! ## The state store (`main.go` lines 120-133) -/

/-- Function `clearPendingPicture`. -/
def clearPendingPicture (id : String) : Go Unit := do
  emit Effect.lock
  mapDelete id
  emit Effect.unlock

/-- Function `hasPendingPicture`. -/
def hasPendingPicture (id : String) : Go Bool := do
  emit Effect.lock
  let ok ← mapRead id
  emit Effect.unlock
  return ok

/-- The locked insertion `state[id] = id` that ends `handleImageAttachment`
(lines 114-117), as an operation of its own. -/
def markPending (id : String) : Go Unit := do
  emit Effect.lock
  mapInsert id id
  emit Effect.unlock

/-! ## Classification (`main.go` lines 137-166) -/

/-- The loop `for _, concept := range ...Concepts` of `isPotholePicture` with the
`return false, nil` that follows it. -/
def rangeConcepts : List Concept → Bool × Option String
  | [] => (false, none)
  | concept :: rest =>
    if concept.Name = "pothole" ∧
        FloatValue.gt concept.Value.value
          (FloatValue.finite (floatConst08 concept.Value.format)) = true then (true, none)
    else rangeConcepts rest

/-- Function `isPotholePicture`. The two type assertions of its first lines panic
when the payload is not a map or has no string under `"url"`. -/
def isPotholePicture (env : Env) (attachment : Option Attachment) : Go (Bool × Option String) :=
  match attachment with
  | none => Go.panic "invalid memory address or nil pointer dereference"
  | some a =>
    match a.Payload with
    | Iface.obj payload =>
      match (payload.lookup "url").getD Iface.null with
      | Iface.str url => do
        let r ← predictDo env "Stuff" url
        match r with
        | Except.error err => return (false, some err)
        | Except.ok resp =>
          match resp.Outputs with
          | [] => return (false, some "No outputs from clarify")
          | output :: _ => return rangeConcepts output.Data.Concepts
      | _ => Go.panic "interface conversion: interface is not string"
    | _ => Go.panic "interface conversion: interface is not map[string]interface"

/-! ## Replies (`main.go` lines 168-202) -/

/-- Function `sendReply`: one `bot.SendTextMessage` to the sender; its result is
discarded by the source. -/
def sendReply (opts : MessageOpts) (msg : String) : Go Unit :=
  emit (Effect.sendText opts.Sender.ID msg)

/-- Function `sendNotStupid`. -/
def sendNotStupid (env : Env) (opts : MessageOpts) : Go Unit := do
  let message := "I'm educated. That is no pothole!"
  let r ← getProfile env opts.Sender.ID
  match r with
  | Except.ok profile => sendReply opts (profile.FirstName ++ " - " ++ message)
  | Except.error _ => sendReply opts message

/-- Function `sendUsage`. -/
def sendUsage (env : Env) (opts : MessageOpts) : Go Unit := do
  let message := "Send me pictures of pot holes that you find!"
  let r ← getProfile env opts.Sender.ID
  match r with
  | Except.ok profile => sendReply opts ("Hi " ++ profile.FirstName ++ "! " ++ message)
  | Except.error _ => sendReply opts ("Hi! " ++ message)

/-! ## The event router (`main.go` lines 70-118, 204-225) -/

/-- Function `handleImageAttachment`. -/
def handleImageAttachment (env : Env) (opts : MessageOpts) (msg : ReceivedMessage) : Go Unit :=
  match msg.Attachments with
  | [] => Go.panic "index out of range [0] with length 0"
  | first :: _ => do
    let (isHole, err) ← isPotholePicture env first
    match err with
    | some _ =>
      sendReply opts "Sorry. I lost my glasses and I'm having trouble looking at the picture."
    | none =>
      if !isHole then
        sendNotStupid env opts
      else do
        sendReply opts "Thanks for letting us know about the pot hole - can you send your location?"
        markPending opts.Sender.ID

/-- Function `messageReceivedHandler`. -/
def messageReceivedHandler (env : Env) (opts : MessageOpts) (msg : ReceivedMessage) : Go Unit :=
  match msg.Attachments with
  | [] => sendUsage env opts
  | none :: _ => Go.panic "invalid memory address or nil pointer dereference"
  | some first :: _ =>
    if first.Typ = "image" then do
      let pending ← hasPendingPicture opts.Sender.ID
      if pending then clearPendingPicture opts.Sender.ID
      handleImageAttachment env opts msg
    else do
      let pending ← hasPendingPicture opts.Sender.ID
      if pending && first.Typ = "location" then do
        clearPendingPicture opts.Sender.ID
        sendReply opts "We'll send our crews out there! Stay tuned!"
      else
        sendReply opts ("Thanks for sending me a " ++ first.Typ)

/-- Function `messageDeliveredHandler`: the body is empty. -/
def messageDeliveredHandler (_opts : MessageOpts) : Go Unit := pure ()

/-- Function `postbackHandler`: the body is empty. -/
def postbackHandler (_opts : MessageOpts) : Go Unit := pure ()

/-- Function `authenticationHandler`: the body is empty. -/
def authenticationHandler (_opts : MessageOpts) : Go Unit := pure ()

/-- An inbound webhook event, by the callback that `main` registers for it
(lines 58-61). The delivery, postback and opt-in bodies are not read by the
handlers and are left out. -/
inductive Event where
  | message (opts : MessageOpts) (msg : ReceivedMessage)
  | delivered (opts : MessageOpts)
  | postback (opts : MessageOpts)
  | authentication (opts : MessageOpts)

/-- The sender of an event. -/
def Event.sender : Event → String
  | Event.message opts _ => opts.Sender.ID
  | Event.delivered opts => opts.Sender.ID
  | Event.postback opts => opts.Sender.ID
  | Event.authentication opts => opts.Sender.ID

/-- The callback registered in `main` for each kind of event. -/
def dispatch (env : Env) : Event → Go Unit
  | Event.message opts msg => messageReceivedHandler env opts msg
  | Event.delivered opts => messageDeliveredHandler opts
  | Event.postback opts => postbackHandler opts
  | Event.authentication opts => authenticationHandler opts

/-- Events processed one after another, each with the collaborators as they
answer at that time. The store is threaded through; a handler that panics
leaves the store as it was at the panic. -/
def run : List (Env × Event) → State → State
  | [], s => s
  | (env, ev) :: rest, s => run rest (dispatch env ev s).state

/-- The texts sent, with their recipients, among a list of effects. -/
def replies : List Effect → List (String × String)
  | [] => []
  | Effect.sendText recipient text :: rest => (recipient, text) :: replies rest
  | _ :: rest => replies rest


/-! ## The pending state as the specification words it -/

/-- The type of the first attachment of a message event, when it has one. -/
def firstAttachmentTyp : Event → Option String
  | Event.message _ msg =>
    match msg.Attachments with
    | some a :: _ => some a.Typ
    | _ => none
  | _ => none

/-- Event `ev` is a message of user `U` whose first attachment has type `"image"`. -/
def imageFirstFrom (U : String) (ev : Event) : Bool :=
  ev.sender == U && firstAttachmentTyp ev == some "image"

/-- Event `ev` is a message of user `U` whose first attachment has type `"location"`. -/
def locationFirstFrom (U : String) (ev : Event) : Bool :=
  ev.sender == U && firstAttachmentTyp ev == some "location"

/-- The classification of the first attachment of a message event succeeds with
is-pothole true: `isPotholePicture` returns `(true, nil)`. -/
def classifiedPothole (env : Env) : Event → Bool
  | Event.message _ msg =>
    match msg.Attachments with
    | first :: _ => decide ((isPotholePicture env first emptyState).outcome = Outcome.ret (true, none))
    | [] => false
  | _ => false

/-- The pending state in the words of the specification: somewhere in the history
user `U` sent an image-first message that was classified as a pothole, and no
later event of the history is an image-first or location-first message of `U`. -/
def pendingBySpec (U : String) : List (Env × Event) → Bool
  | [] => false
  | (env, ev) :: later =>
    (imageFirstFrom U ev && classifiedPothole env ev &&
      later.all (fun e => !(imageFirstFrom U e.2 || locationFirstFrom U e.2)))
    || pendingBySpec U later

/-! ## Startup (`main.go` lines 19-66) -/

/-- The calls `main` makes once the environment is read, in program order. -/
inductive StartupEffect where
  | connect (clientId : String) (clientSecret : String)
  | newMessengerBot (accessToken : String) (verifyToken : String)
  | handleFunc (pattern : String)
  | listenAndServe (addr : String)
  deriving DecidableEq

/-- What a run of `main` leaves behind: a normal return (after
`http.ListenAndServe` returned) or a panic, the store it made, and its calls. -/
structure Startup where
  outcome : Outcome Unit
  state : State
  trace : List StartupEffect

/-- Function `os.Getenv`: the value of the variable, the empty string when the
variable is unset. -/
def getenv (environ : String → Option String) (key : String) : String :=
  (environ key).getD ""

/-- Function `main`, over the process environment and the error that
`cl.Connect(clientId, clientSecret)` returns (`none` for `err == nil`). -/
def main (environ : String → Option String) (connect : String → String → Option String) :
    Startup :=
  let state := emptyState
  let port := if getenv environ "PORT" = "" then "3000" else getenv environ "PORT"
  let verifyToken := getenv environ "MESSENGER_VERIFY_TOKEN"
  if verifyToken = "" then
    ⟨Outcome.panic "Environment variable 'MESSENGER_VERIFY_TOKEN' must be set", state, []⟩
  else
    let accessToken := getenv environ "MESSENGER_ACCESS_TOKEN"
    if accessToken = "" then
      ⟨Outcome.panic "Environment variable 'MESSENGER_ACCESS_TOKEN' must be set", state, []⟩
    else
      let clientId := getenv environ "CLARIFAI_CLIENT_ID"
      if clientId = "" then
        ⟨Outcome.panic "Environment variable 'CLARIFAI_CLIENT_ID' must be set", state, []⟩
      else
        let clientSecret := getenv environ "CLARIFAI_CLIENT_SECRET"
        if clientSecret = "" then
          ⟨Outcome.panic "Environment variable 'CLARIFAI_CLIENT_SECRET' must be set", state, []⟩
        else
          match connect clientId clientSecret with
          | some err =>
            ⟨Outcome.panic ("Error connecting to clarifai " ++ err), state,
              [StartupEffect.connect clientId clientSecret]⟩
          | none =>
            ⟨Outcome.ret (), state,
              [StartupEffect.connect clientId clientSecret,
               StartupEffect.newMessengerBot accessToken verifyToken,
               StartupEffect.handleFunc "/",
               StartupEffect.listenAndServe (":" ++ port)]⟩

/-- An environment variable is unset, or set to the empty string. -/
def unsetOrEmpty (environ : String → Option String) (key : String) : Prop :=
  environ key = none ∨ environ key = some ""

/-- An environment with the four credentials and no `PORT`. -/
def environCredentials : String → Option String := fun key =>
  if key = "MESSENGER_VERIFY_TOKEN" then some "verify"
  else if key = "MESSENGER_ACCESS_TOKEN" then some "access"
  else if key = "CLARIFAI_CLIENT_ID" then some "id"
  else if key = "CLARIFAI_CLIENT_SECRET" then some "secret"
  else none

/-! ## The scope of `stateMutex` -/

/-- Where an invocation stands with respect to `stateMutex`: it does not hold it,
it has just taken it, or it holds it and has done its map operation. -/
inductive LockPhase where
  | free
  | acquired
  | used
  deriving DecidableEq

/-- The phase after one effect, or `none` when the effect is out of place: a map
operation without the lock or a second one under the same lock, a collaborator
call with the lock held, a lock taken while held, an unlock without the lock or
before any map operation. -/
def LockPhase.next : LockPhase → Effect → Option LockPhase
  | LockPhase.free, Effect.lock => some LockPhase.acquired
  | LockPhase.acquired, Effect.mapRead _ => some LockPhase.used
  | LockPhase.acquired, Effect.mapInsert _ _ => some LockPhase.used
  | LockPhase.acquired, Effect.mapDelete _ => some LockPhase.used
  | LockPhase.used, Effect.unlock => some LockPhase.free
  | LockPhase.free, Effect.predict _ _ => some LockPhase.free
  | LockPhase.free, Effect.getProfile _ => some LockPhase.free
  | LockPhase.free, Effect.sendText _ _ => some LockPhase.free
  | _, _ => none

/-- The effects, read from phase `p`, keep every acquisition of the lock around
exactly one map operation and nothing else, and end with the lock released. -/
def lockScoped : LockPhase → List Effect → Bool
  | p, [] => decide (p = LockPhase.free)
  | p, e :: rest =>
    match p.next e with
    | some q => lockScoped q rest
    | none => false

/-- Concurrent invocations of the handler: the invocation that holds
`stateMutex`, if any, and the effects each invocation still has to perform. -/
structure Conc where
  holder : Option Nat
  todo : Nat → List Effect

/-- Invocation `i` performs its next effect. `Lock` does not happen while the
mutex is held (the invocation waits); `Unlock` releases the mutex whoever holds
it, and does not happen on a mutex that is not locked. -/
def Conc.step (c : Conc) (i : Nat) : Option (Effect × Conc) :=
  match c.todo i with
  | [] => none
  | Effect.lock :: rest =>
    if c.holder = none then some (Effect.lock, ⟨some i, Function.update c.todo i rest⟩)
    else none
  | Effect.unlock :: rest =>
    if c.holder = none then none
    else some (Effect.unlock, ⟨none, Function.update c.todo i rest⟩)
  | e :: rest => some (e, ⟨c.holder, Function.update c.todo i rest⟩)

/-- An interleaving: the schedule names the invocation that moves next; a move
that cannot happen is skipped. The log lists each effect performed with its
invocation and the holder of the mutex at that moment. -/
def Conc.exec : List Nat → Conc → List (Nat × Effect × Option Nat)
  | [], _ => []
  | i :: schedule, c =>
    match c.step i with
    | some (e, c1) => (i, e, c.holder) :: Conc.exec schedule c1
    | none => Conc.exec schedule c

/-- The mutex is held as an effect of invocation `i` requires: free when `i` locks,
held by `i` when `i` unlocks or touches the map, not held by `i` when `i` calls a
collaborator. -/
def heldAsRequired : Nat × Effect × Option Nat → Bool
  | (_, Effect.lock, h) => decide (h = none)
  | (i, Effect.unlock, h) => decide (h = some i)
  | (i, Effect.mapRead _, h) => decide (h = some i)
  | (i, Effect.mapInsert _ _, h) => decide (h = some i)
  | (i, Effect.mapDelete _, h) => decide (h = some i)
  | (i, Effect.predict _ _, h) => decide (h ≠ some i)
  | (i, Effect.getProfile _, h) => decide (h ≠ some i)
  | (i, Effect.sendText _ _, h) => decide (h ≠ some i)

/-- The mutex and the phases of the invocations agree: the holder is inside an
acquisition, every other invocation is outside. -/
def Conc.agrees (c : Conc) : Prop :=
  ∀ i, if c.holder = some i then
      lockScoped LockPhase.acquired (c.todo i) = true ∨ lockScoped LockPhase.used (c.todo i) = true
    else lockScoped LockPhase.free (c.todo i) = true

/-! ## Concrete inputs -/

/-- A sender with identifier `"U"`. -/
def userU : MessageOpts := ⟨⟨"U"⟩⟩

/-- A sender with identifier `"V"`. -/
def userV : MessageOpts := ⟨⟨"V"⟩⟩

/-- An image attachment as the transport delivers it: a map with a string url. -/
def imageAttachment : Attachment :=
  ⟨"image", Iface.obj [("url", Iface.str "http://example.org/road.jpg")]⟩

/-- An image attachment whose payload is a JSON string and not a map. -/
def malformedImage : Attachment := ⟨"image", Iface.str "road.jpg"⟩

/-- A location attachment. -/
def locationAttachment : Attachment :=
  ⟨"location", Iface.obj [("coordinates", Iface.obj [("lat", Iface.num 45), ("long", Iface.num 7)])]⟩

/-- A video attachment. -/
def videoAttachment : Attachment :=
  ⟨"video", Iface.obj [("url", Iface.str "http://example.org/road.mp4")]⟩

/-- Collaborators whose classifier answers `r` and whose profile lookup fails. -/
def envOf (r : Except String Response) : Env :=
  ⟨fun _ _ => r, fun _ => Except.error "profile unavailable"⟩

/-- The `float64` value 0.9375, which is 15/16. -/
def conf09375 : GoFloat := ⟨FloatFormat.float64, FloatValue.finite (15 / 16)⟩

/-- The `float64` value that the constant `0.8` denotes. -/
def conf08 : GoFloat :=
  ⟨FloatFormat.float64, FloatValue.finite (3602879701896397 / 4503599627370496)⟩

/-- A response with the single concept `("pothole", 0.9375)`. -/
def respPothole : Response := ⟨[⟨⟨[⟨"pothole", conf09375⟩]⟩⟩]⟩

/-- A response with the single concept `("car", 0.9375)`. -/
def respCar : Response := ⟨[⟨⟨[⟨"car", conf09375⟩]⟩⟩]⟩

/-- A response with the single concept `("pothole", 0.8)`. -/
def respPotholeAt08 : Response := ⟨[⟨⟨[⟨"pothole", conf08⟩]⟩⟩]⟩

/-- A response with two outputs: the first has the concept `("car", 0.9375)`, the
second the concept `("pothole", 0.9375)`. -/
def respPotholeSecondOutput : Response :=
  ⟨[⟨⟨[⟨"car", conf09375⟩]⟩⟩, ⟨⟨[⟨"pothole", conf09375⟩]⟩⟩]⟩

/-- A response with one output that carries no concept. -/
def respNoConcepts : Response := ⟨[⟨⟨[]⟩⟩]⟩

/-- A response without outputs. -/
def respNoOutputs : Response := ⟨[]⟩

/-- A store in which only user `"U"` is pending. -/
def pendingU : State := Function.update emptyState "U" (some "U")

/-- Collaborators whose classifier answers `r` and whose profile lookup succeeds
with first name `"Ada"`. -/
def envNamed (r : Except String Response) : Env :=
  ⟨fun _ _ => r, fun _ => Except.ok ⟨"Ada"⟩⟩

/-- An image attachment whose payload is a map without the key `"url"`. -/
def imageWithoutUrl : Attachment := ⟨"image", Iface.obj [("sticker_id", Iface.num 7)]⟩

/-- An image attachment whose payload has a number under `"url"`. -/
def imageNumericUrl : Attachment := ⟨"image", Iface.obj [("url", Iface.num 7)]⟩

/-- Two concurrent invocations: number 0 handles an image of `"U"` while the
classifier times out, every other number handles a location of `"V"`, which is
pending. -/
def twoInvocations : Conc :=
  ⟨none, fun i =>
    if i = 0 then
      (messageReceivedHandler (envOf (Except.error "timeout")) userU
        ⟨"", [some imageAttachment]⟩ emptyState).trace
    else
      (messageReceivedHandler (envOf (Except.error "timeout")) userV
        ⟨"", [some locationAttachment]⟩ (Function.update emptyState "V" (some "V"))).trace⟩

/-! ## Floating-point constants -/

theorem floatConst08_float32 :
    floatConst08 FloatFormat.float32 = 13421773 / 16777216 := by
  have h : round ((4 / 5 : ℚ) * 2 ^ 24) = 13421773 := by
    rw [round_eq, Int.floor_eq_iff]
    norm_num
  simp only [floatConst08, FloatFormat.precision, h]
  norm_num

theorem floatConst08_float64 :
    floatConst08 FloatFormat.float64 = 3602879701896397 / 4503599627370496 := by
  have h : round ((4 / 5 : ℚ) * 2 ^ 53) = 7205759403792794 := by
    rw [round_eq, Int.floor_eq_iff]
    norm_num
  simp only [floatConst08, FloatFormat.precision, h]
  norm_num

theorem four_fifths_lt_floatConst08 (fmt : FloatFormat) : 4 / 5 < floatConst08 fmt := by
  cases fmt
  · rw [floatConst08_float32]; norm_num
  · rw [floatConst08_float64]; norm_num

theorem FloatValue.gt_finite_iff (v : FloatValue) (c : ℚ) :
    FloatValue.gt v (FloatValue.finite c) = true ↔
      v = FloatValue.posInf ∨ ∃ q, v = FloatValue.finite q ∧ c < q := by
  cases v <;> simp [FloatValue.gt]

/-- A multiple of `1 / 2 ^ p` that is a value of a format in the sense of
`represents` and lies above 1/2. -/
theorem represents_multiple (p : ℕ) (q : ℚ) (m : ℕ) (e : ℤ) (hm : m < 2 ^ p)
    (hq : q = m * 2 ^ e) (hhalf : 1 / 2 < q) : ∃ n : ℕ, q = n / 2 ^ p := by
  have h2 : (0 : ℚ) < 2 := by norm_num
  have hmq : (m : ℚ) < 2 ^ p := by exact_mod_cast hm
  by_cases he : e < -(p : ℤ)
  · exfalso
    have hle : (2 : ℚ) ^ e ≤ 2 ^ (-(p : ℤ) - 1) :=
      zpow_le_zpow_right₀ (by norm_num) (by omega)
    have hpow : (2 : ℚ) ^ (-(p : ℤ) - 1) = 1 / (2 ^ p * 2) := by
      rw [zpow_sub₀ (by norm_num), zpow_neg, zpow_natCast, zpow_one]
      field_simp
    have hpos : (0 : ℚ) < 2 ^ p := by positivity
    have : q ≤ m * (1 / (2 ^ p * 2)) := by
      rw [hq, ← hpow]
      exact mul_le_mul_of_nonneg_left hle (by positivity)
    have : q < 2 ^ p * (1 / (2 ^ p * 2)) :=
      lt_of_le_of_lt this (mul_lt_mul_of_pos_right hmq (by positivity))
    have h12 : (2 : ℚ) ^ p * (1 / (2 ^ p * 2)) = 1 / 2 := by field_simp
    rw [h12] at this
    exact absurd hhalf (not_lt.mpr this.le)
  · have hk : 0 ≤ e + p := by omega
    obtain ⟨k, hk⟩ := Int.eq_ofNat_of_zero_le hk
    refine ⟨m * 2 ^ k, ?_⟩
    have he2 : e = (k : ℤ) - p := by omega
    rw [hq, he2, zpow_sub₀ (by norm_num), zpow_natCast, zpow_natCast]
    push_cast
    ring

/-- No value of a format lies strictly between 0.8 and the constant `0.8` of the
format. -/
theorem no_float_between (fmt : FloatFormat) (q : ℚ) (hr : fmt.represents q)
    (h1 : 4 / 5 < q) (h2 : q < floatConst08 fmt) : False := by
  obtain ⟨m, e, hm, hq | hq⟩ := hr
  · obtain ⟨n, hn⟩ := represents_multiple fmt.precision q m e hm hq (by linarith)
    cases fmt
    · rw [floatConst08_float32] at h2
      simp only [FloatFormat.precision] at hn
      rw [hn] at h1 h2
      have a1 : (13421772 : ℚ) < n := by
        rw [lt_div_iff₀ (by norm_num)] at h1
        norm_num at h1
        linarith
      have a2 : (n : ℚ) < 13421773 := by
        rw [div_lt_iff₀ (by norm_num)] at h2
        norm_num at h2
        exact_mod_cast h2
      have b1 : 13421772 < n := by exact_mod_cast a1
      have b2 : n < 13421773 := by exact_mod_cast a2
      omega
    · rw [floatConst08_float64] at h2
      simp only [FloatFormat.precision] at hn
      rw [hn] at h1 h2
      have a1 : (7205759403792793 : ℚ) < n := by
        rw [lt_div_iff₀ (by norm_num)] at h1
        norm_num at h1
        linarith
      have a2 : (n : ℚ) < 7205759403792794 := by
        rw [div_lt_iff₀ (by norm_num)] at h2
        norm_num at h2
        exact_mod_cast h2
      have b1 : 7205759403792793 < n := by exact_mod_cast a1
      have b2 : n < 7205759403792794 := by exact_mod_cast a2
      omega
  · have : (0 : ℚ) ≤ m * 2 ^ e := by positivity
    linarith

/-! ## Evaluation lemmas -/

theorem hasPendingPicture_eq (id : String) (s : State) :
    hasPendingPicture id s =
      ⟨Outcome.ret (s id).isSome, s, [Effect.lock, Effect.mapRead id, Effect.unlock]⟩ := rfl

theorem clearPendingPicture_eq (id : String) (s : State) :
    clearPendingPicture id s =
      ⟨Outcome.ret (), Function.update s id none,
        [Effect.lock, Effect.mapDelete id, Effect.unlock]⟩ := rfl

theorem markPending_eq (id : String) (s : State) :
    markPending id s =
      ⟨Outcome.ret (), Function.update s id (some id),
        [Effect.lock, Effect.mapInsert id id, Effect.unlock]⟩ := rfl

theorem bind_apply {α β : Type} (m : Go α) (f : α → Go β) (s : State) :
    (m >>= f) s = Go.bind m f s := rfl

theorem bind_ret {α β : Type} (m : Go α) (f : α → Go β) (s s1 : State) (a : α) (t1 : List Effect)
    (h : m s = ⟨Outcome.ret a, s1, t1⟩) :
    (m >>= f) s = ⟨(f a s1).outcome, (f a s1).state, t1 ++ (f a s1).trace⟩ := by
  show Go.bind m f s = _
  unfold Go.bind
  rw [h]

theorem bind_panic {α β : Type} (m : Go α) (f : α → Go β) (s s1 : State) (r : String)
    (t1 : List Effect) (h : m s = ⟨Outcome.panic r, s1, t1⟩) :
    (m >>= f) s = ⟨Outcome.panic r, s1, t1⟩ := by
  show Go.bind m f s = _
  unfold Go.bind
  rw [h]

theorem rangeConcepts_true_iff (cs : List Concept) :
    rangeConcepts cs = (true, none) ↔
      ∃ c ∈ cs, c.Name = "pothole" ∧
        FloatValue.gt c.Value.value (FloatValue.finite (floatConst08 c.Value.format)) = true := by
  induction cs with
  | nil => simp [rangeConcepts]
  | cons c cs ih =>
    unfold rangeConcepts
    by_cases h : c.Name = "pothole" ∧
        FloatValue.gt c.Value.value (FloatValue.finite (floatConst08 c.Value.format)) = true
    · rw [if_pos h]
      simp only [true_iff]
      exact ⟨c, List.mem_cons_self _ _, h⟩
    · rw [if_neg h, ih]
      constructor
      · rintro ⟨d, hd, hp⟩
        exact ⟨d, List.mem_cons_of_mem _ hd, hp⟩
      · rintro ⟨d, hd, hp⟩
        rcases List.mem_cons.mp hd with rfl | hd
        · exact absurd hp h
        · exact ⟨d, hd, hp⟩

theorem rangeConcepts_cases (cs : List Concept) :
    rangeConcepts cs = (true, none) ∨ rangeConcepts cs = (false, none) := by
  induction cs with
  | nil => right; rfl
  | cons c cs ih =>
    unfold rangeConcepts
    split
    · left; rfl
    · exact ih

theorem isPotholePicture_reached (env : Env) (a : Attachment) (s : State)
    (payload : List (String × Iface)) (url : String)
    (hp : a.Payload = Iface.obj payload) (hu : payload.lookup "url" = some (Iface.str url)) :
    isPotholePicture env (some a) s =
      ⟨Outcome.ret (match env.predict "Stuff" url with
          | Except.error err => (false, some err)
          | Except.ok resp =>
            match resp.Outputs with
            | [] => (false, some "No outputs from clarify")
            | output :: _ => rangeConcepts output.Data.Concepts),
        s, [Effect.predict "Stuff" url]⟩ := by
  unfold isPotholePicture
  simp only [hp, hu, Option.getD_some]
  rw [bind_ret _ _ s s (env.predict "Stuff" url) [Effect.predict "Stuff" url] rfl]
  cases hr : env.predict "Stuff" url with
  | error e => rfl
  | ok resp =>
    cases ho : resp.Outputs with
    | nil => simp only [ho]; rfl
    | cons o os => simp only [ho]; rfl

theorem isPotholePicture_frame (env : Env) (att : Option Attachment) (s s0 : State) :
    isPotholePicture env att s =
      ⟨(isPotholePicture env att s0).outcome, s, (isPotholePicture env att s0).trace⟩ := by
  cases att with
  | none => rfl
  | some a =>
    cases hp : a.Payload with
    | obj payload =>
      cases hu : payload.lookup "url" with
      | none => simp only [isPotholePicture, hp, hu]; rfl
      | some v =>
        cases v with
        | str url =>
          rw [isPotholePicture_reached env a s payload url hp hu,
            isPotholePicture_reached env a s0 payload url hp hu]
        | _ => simp only [isPotholePicture, hp, hu]; rfl
    | _ => simp only [isPotholePicture, hp]; rfl

theorem sendNotStupid_eq (env : Env) (opts : MessageOpts) (s : State) :
    sendNotStupid env opts s =
      ⟨Outcome.ret (), s,
        [Effect.getProfile opts.Sender.ID,
         Effect.sendText opts.Sender.ID
          (match env.getProfile opts.Sender.ID with
            | Except.ok profile => profile.FirstName ++ " - " ++ "I'm educated. That is no pothole!"
            | Except.error _ => "I'm educated. That is no pothole!")]⟩ := by
  unfold sendNotStupid
  rw [bind_ret _ _ s s (env.getProfile opts.Sender.ID) [Effect.getProfile opts.Sender.ID] rfl]
  cases env.getProfile opts.Sender.ID <;> rfl

theorem sendUsage_eq (env : Env) (opts : MessageOpts) (s : State) :
    sendUsage env opts s =
      ⟨Outcome.ret (), s,
        [Effect.getProfile opts.Sender.ID,
         Effect.sendText opts.Sender.ID
          (match env.getProfile opts.Sender.ID with
            | Except.ok profile =>
              "Hi " ++ profile.FirstName ++ "! " ++ "Send me pictures of pot holes that you find!"
            | Except.error _ => "Hi! " ++ "Send me pictures of pot holes that you find!")]⟩ := by
  unfold sendUsage
  rw [bind_ret _ _ s s (env.getProfile opts.Sender.ID) [Effect.getProfile opts.Sender.ID] rfl]
  cases env.getProfile opts.Sender.ID <;> rfl

theorem handleImageAttachment_panic (env : Env) (opts : MessageOpts) (msg : ReceivedMessage)
    (first : Option Attachment) (rest : List (Option Attachment)) (s s1 : State) (r : String)
    (t : List Effect) (hm : msg.Attachments = first :: rest)
    (h : isPotholePicture env first s = ⟨Outcome.panic r, s1, t⟩) :
    handleImageAttachment env opts msg s = ⟨Outcome.panic r, s1, t⟩ := by
  unfold handleImageAttachment
  simp only [hm]
  exact bind_panic _ _ s s1 r t h

theorem handleImageAttachment_error (env : Env) (opts : MessageOpts) (msg : ReceivedMessage)
    (first : Option Attachment) (rest : List (Option Attachment)) (s s1 : State) (b : Bool)
    (e : String) (t : List Effect) (hm : msg.Attachments = first :: rest)
    (h : isPotholePicture env first s = ⟨Outcome.ret (b, some e), s1, t⟩) :
    handleImageAttachment env opts msg s =
      ⟨Outcome.ret (), s1, t ++ [Effect.sendText opts.Sender.ID
        "Sorry. I lost my glasses and I'm having trouble looking at the picture."]⟩ := by
  unfold handleImageAttachment
  simp only [hm]
  rw [bind_ret _ _ s s1 (b, some e) t h]
  rfl

theorem handleImageAttachment_false (env : Env) (opts : MessageOpts) (msg : ReceivedMessage)
    (first : Option Attachment) (rest : List (Option Attachment)) (s s1 : State)
    (t : List Effect) (hm : msg.Attachments = first :: rest)
    (h : isPotholePicture env first s = ⟨Outcome.ret (false, none), s1, t⟩) :
    handleImageAttachment env opts msg s =
      ⟨Outcome.ret (), s1, t ++ (sendNotStupid env opts s1).trace⟩ := by
  unfold handleImageAttachment
  simp only [hm]
  rw [bind_ret _ _ s s1 (false, none) t h]
  simp [sendNotStupid_eq]

theorem handleImageAttachment_true (env : Env) (opts : MessageOpts) (msg : ReceivedMessage)
    (first : Option Attachment) (rest : List (Option Attachment)) (s s1 : State)
    (t : List Effect) (hm : msg.Attachments = first :: rest)
    (h : isPotholePicture env first s = ⟨Outcome.ret (true, none), s1, t⟩) :
    handleImageAttachment env opts msg s =
      ⟨Outcome.ret (), Function.update s1 opts.Sender.ID (some opts.Sender.ID),
        t ++ [Effect.sendText opts.Sender.ID
          "Thanks for letting us know about the pot hole - can you send your location?",
          Effect.lock, Effect.mapInsert opts.Sender.ID opts.Sender.ID, Effect.unlock]⟩ := by
  unfold handleImageAttachment
  simp only [hm]
  rw [bind_ret _ _ s s1 (true, none) t h]
  rfl

theorem messageReceivedHandler_image (env : Env) (opts : MessageOpts) (msg : ReceivedMessage)
    (a : Attachment) (rest : List (Option Attachment)) (s : State)
    (hm : msg.Attachments = some a :: rest) (ht : a.Typ = "image") :
    messageReceivedHandler env opts msg s =
      ⟨(handleImageAttachment env opts msg (Function.update s opts.Sender.ID none)).outcome,
       (handleImageAttachment env opts msg (Function.update s opts.Sender.ID none)).state,
       [Effect.lock, Effect.mapRead opts.Sender.ID, Effect.unlock] ++
        (if (s opts.Sender.ID).isSome then
          [Effect.lock, Effect.mapDelete opts.Sender.ID, Effect.unlock] else []) ++
        (handleImageAttachment env opts msg (Function.update s opts.Sender.ID none)).trace⟩ := by
  unfold messageReceivedHandler
  simp only [hm, ht, if_true]
  rw [bind_ret _ _ s s _ _ (hasPendingPicture_eq opts.Sender.ID s)]
  cases hs : (s opts.Sender.ID).isSome with
  | true =>
    simp only [if_true]
    rw [bind_ret _ _ s _ _ _ (clearPendingPicture_eq opts.Sender.ID s)]
    simp
  | false =>
    have hnone : s opts.Sender.ID = none := by
      cases h : s opts.Sender.ID with
      | none => rfl
      | some v => rw [h] at hs; cases hs
    have hupd : Function.update s opts.Sender.ID none = s := by
      rw [← hnone]; exact Function.update_eq_self _ _
    rw [hupd]
    simp only [Bool.false_eq_true, if_false]
    rw [bind_ret _ _ s s () [] rfl]
    simp

theorem messageReceivedHandler_other (env : Env) (opts : MessageOpts) (msg : ReceivedMessage)
    (a : Attachment) (rest : List (Option Attachment)) (s : State)
    (hm : msg.Attachments = some a :: rest) (ht : a.Typ ≠ "image") :
    messageReceivedHandler env opts msg s =
      if (s opts.Sender.ID).isSome = true ∧ a.Typ = "location" then
        ⟨Outcome.ret (), Function.update s opts.Sender.ID none,
          [Effect.lock, Effect.mapRead opts.Sender.ID, Effect.unlock,
           Effect.lock, Effect.mapDelete opts.Sender.ID, Effect.unlock,
           Effect.sendText opts.Sender.ID "We'll send our crews out there! Stay tuned!"]⟩
      else
        ⟨Outcome.ret (), s,
          [Effect.lock, Effect.mapRead opts.Sender.ID, Effect.unlock,
           Effect.sendText opts.Sender.ID ("Thanks for sending me a " ++ a.Typ)]⟩ := by
  unfold messageReceivedHandler
  simp only [hm, ht, if_false]
  rw [bind_ret _ _ s s _ _ (hasPendingPicture_eq opts.Sender.ID s)]
  by_cases h : (s opts.Sender.ID).isSome = true ∧ a.Typ = "location"
  · rw [if_pos h]
    simp only [h.1, h.2, Bool.true_and, decide_True, if_true]
    rw [bind_ret _ _ s _ _ _ (clearPendingPicture_eq opts.Sender.ID s)]
    rfl
  · rw [if_neg h]
    have h2 : ((s opts.Sender.ID).isSome && decide (a.Typ = "location")) = false := by
      cases hs : (s opts.Sender.ID).isSome with
      | false => rfl
      | true =>
        have : a.Typ ≠ "location" := fun hl => h ⟨hs, hl⟩
        simp [this]
    simp only [h2, Bool.false_eq_true, if_false]
    rfl


theorem replies_append (t1 t2 : List Effect) : replies (t1 ++ t2) = replies t1 ++ replies t2 := by
  induction t1 with
  | nil => rfl
  | cons e t ih => cases e <;> simp [replies, ih]

theorem isPotholePicture_trace (env : Env) (att : Option Attachment) (s : State) :
    (isPotholePicture env att s).trace = [] ∨
      ∃ url, (isPotholePicture env att s).trace = [Effect.predict "Stuff" url] := by
  cases att with
  | none => left; rfl
  | some a =>
    cases hp : a.Payload with
    | obj payload =>
      cases hu : payload.lookup "url" with
      | none => left; simp only [isPotholePicture, hp, hu]; rfl
      | some v =>
        cases v with
        | str url =>
          right
          exact ⟨url, by rw [isPotholePicture_reached env a s payload url hp hu]⟩
        | _ => left; simp only [isPotholePicture, hp, hu]; rfl
    | _ => left; simp only [isPotholePicture, hp]; rfl

theorem replies_isPotholePicture (env : Env) (att : Option Attachment) (s : State) :
    replies (isPotholePicture env att s).trace = [] := by
  rcases isPotholePicture_trace env att s with h | ⟨url, h⟩ <;> rw [h] <;> rfl

theorem replies_check_clear (id : String) (b : Bool) :
    replies ([Effect.lock, Effect.mapRead id, Effect.unlock] ++
      (if b = true then [Effect.lock, Effect.mapDelete id, Effect.unlock] else [])) = [] := by
  cases b <;> rfl

/-- The image branch of `messageReceivedHandler`, by the outcome of the classification. -/
theorem messageReceivedHandler_image_cases (env : Env) (opts : MessageOpts)
    (msg : ReceivedMessage) (a : Attachment) (rest : List (Option Attachment)) (s w : State)
    (hm : msg.Attachments = some a :: rest) (ht : a.Typ = "image") :
    (∃ r, (isPotholePicture env (some a) w).outcome = Outcome.panic r ∧
      (messageReceivedHandler env opts msg s).outcome = Outcome.panic r ∧
      (messageReceivedHandler env opts msg s).state = Function.update s opts.Sender.ID none ∧
      replies (messageReceivedHandler env opts msg s).trace = []) ∨
    (∃ b e, (isPotholePicture env (some a) w).outcome = Outcome.ret (b, some e) ∧
      (messageReceivedHandler env opts msg s).outcome = Outcome.ret () ∧
      (messageReceivedHandler env opts msg s).state = Function.update s opts.Sender.ID none ∧
      replies (messageReceivedHandler env opts msg s).trace = [(opts.Sender.ID,
        "Sorry. I lost my glasses and I'm having trouble looking at the picture.")]) ∨
    ((isPotholePicture env (some a) w).outcome = Outcome.ret (false, none) ∧
      (messageReceivedHandler env opts msg s).outcome = Outcome.ret () ∧
      (messageReceivedHandler env opts msg s).state = Function.update s opts.Sender.ID none ∧
      replies (messageReceivedHandler env opts msg s).trace = [(opts.Sender.ID,
        match env.getProfile opts.Sender.ID with
        | Except.ok profile => profile.FirstName ++ " - " ++ "I'm educated. That is no pothole!"
        | Except.error _ => "I'm educated. That is no pothole!")]) ∨
    ((isPotholePicture env (some a) w).outcome = Outcome.ret (true, none) ∧
      (messageReceivedHandler env opts msg s).outcome = Outcome.ret () ∧
      (messageReceivedHandler env opts msg s).state =
        Function.update (Function.update s opts.Sender.ID none) opts.Sender.ID
          (some opts.Sender.ID) ∧
      replies (messageReceivedHandler env opts msg s).trace = [(opts.Sender.ID,
        "Thanks for letting us know about the pot hole - can you send your location?")]) := by
  rw [messageReceivedHandler_image env opts msg a rest s hm ht]
  have hf := isPotholePicture_frame env (some a) (Function.update s opts.Sender.ID none) w
  have hr := replies_isPotholePicture env (some a) w
  have hc := replies_check_clear opts.Sender.ID (s opts.Sender.ID).isSome
  cases ho : (isPotholePicture env (some a) w).outcome with
  | panic r =>
    rw [ho] at hf
    rw [handleImageAttachment_panic env opts msg (some a) rest _ _ r _ hm hf]
    refine Or.inl ⟨r, rfl, rfl, rfl, ?_⟩
    simp only [replies_append, hc, hr, List.append_nil]
  | ret v =>
    rw [ho] at hf
    obtain ⟨b, err⟩ := v
    cases err with
    | some e =>
      rw [handleImageAttachment_error env opts msg (some a) rest _ _ b e _ hm hf]
      refine Or.inr (Or.inl ⟨b, e, rfl, rfl, rfl, ?_⟩)
      simp only [replies_append, hc, hr, List.nil_append]
      rfl
    | none =>
      cases b with
      | false =>
        rw [handleImageAttachment_false env opts msg (some a) rest _ _ _ hm hf]
        refine Or.inr (Or.inr (Or.inl ⟨rfl, rfl, rfl, ?_⟩))
        simp only [replies_append, hc, hr, List.nil_append, sendNotStupid_eq]
        rfl
      | true =>
        rw [handleImageAttachment_true env opts msg (some a) rest _ _ _ hm hf]
        refine Or.inr (Or.inr (Or.inr ⟨rfl, rfl, rfl, ?_⟩))
        simp only [replies_append, hc, hr, List.nil_append]
        rfl


theorem messageReceivedHandler_no_attachment (env : Env) (opts : MessageOpts)
    (msg : ReceivedMessage) (s : State) (hm : msg.Attachments = []) :
    messageReceivedHandler env opts msg s = sendUsage env opts s := by
  unfold messageReceivedHandler
  simp only [hm]

/-- The classification of the concept `("pothole", 0.9375)`. -/
theorem isPotholePicture_respPothole :
    (isPotholePicture (envOf (Except.ok respPothole)) (some imageAttachment) emptyState).outcome
      = Outcome.ret (true, none) := by
  rw [isPotholePicture_reached (envOf (Except.ok respPothole)) imageAttachment emptyState
    [("url", Iface.str "http://example.org/road.jpg")] "http://example.org/road.jpg" rfl rfl]
  have h : rangeConcepts [⟨"pothole", conf09375⟩] = (true, none) := by
    rw [rangeConcepts_true_iff]
    refine ⟨⟨"pothole", conf09375⟩, List.mem_singleton.mpr rfl, rfl, ?_⟩
    rw [FloatValue.gt_finite_iff]
    refine Or.inr ⟨15 / 16, rfl, ?_⟩
    show floatConst08 FloatFormat.float64 < 15 / 16
    rw [floatConst08_float64]
    norm_num
  simp only [envOf, respPothole, h]

theorem messageReceivedHandler_nil_first (env : Env) (opts : MessageOpts) (msg : ReceivedMessage)
    (rest : List (Option Attachment)) (s : State) (hm : msg.Attachments = none :: rest) :
    messageReceivedHandler env opts msg s =
      ⟨Outcome.panic "invalid memory address or nil pointer dereference", s, []⟩ := by
  unfold messageReceivedHandler
  simp only [hm]
  rfl

/-- What one event does to the entry of user `U`. -/
theorem dispatch_entry (U : String) (env : Env) (ev : Event) (s : State) :
    (imageFirstFrom U ev = true →
      ((dispatch env ev s).state U).isSome = classifiedPothole env ev) ∧
    (locationFirstFrom U ev = true → (dispatch env ev s).state U = none) ∧
    (imageFirstFrom U ev = false → locationFirstFrom U ev = false →
      (dispatch env ev s).state U = s U) := by
  cases ev with
  | message opts msg =>
    cases hm : msg.Attachments with
    | nil =>
      have h := messageReceivedHandler_no_attachment env opts msg s hm
      simp [imageFirstFrom, locationFirstFrom, firstAttachmentTyp, hm, dispatch, h,
        sendUsage_eq]
    | cons first rest =>
      cases first with
      | none =>
        have h := messageReceivedHandler_nil_first env opts msg rest s hm
        simp [imageFirstFrom, locationFirstFrom, firstAttachmentTyp, hm, dispatch, h]
      | some a =>
        by_cases ht : a.Typ = "image"
        · have hnl : a.Typ ≠ "location" := by rw [ht]; decide
          by_cases hu : opts.Sender.ID = U
          · subst hu
            have hcp : classifiedPothole env (Event.message opts msg) =
                decide ((isPotholePicture env (some a) emptyState).outcome
                  = Outcome.ret (true, none)) := by
              simp only [classifiedPothole, hm]
            rcases messageReceivedHandler_image_cases env opts msg a rest s emptyState hm ht with
              ⟨r, h1, _, h3, _⟩ | ⟨b, e, h1, _, h3, _⟩ | ⟨h1, _, h3, _⟩ | ⟨h1, _, h3, _⟩ <;>
            simp [imageFirstFrom, locationFirstFrom, firstAttachmentTyp, hm, dispatch, h3, hcp,
              h1, ht, Event.sender]
          · have hu2 : U ≠ opts.Sender.ID := fun h => hu h.symm
            rcases messageReceivedHandler_image_cases env opts msg a rest s emptyState hm ht with
              ⟨r, _, _, h3, _⟩ | ⟨b, e, _, _, h3, _⟩ | ⟨_, _, h3, _⟩ | ⟨_, _, h3, _⟩ <;>
            simp [imageFirstFrom, locationFirstFrom, firstAttachmentTyp, hm, dispatch, h3,
              hu, hu2, Event.sender, Function.update_noteq hu2]
        · have h := messageReceivedHandler_other env opts msg a rest s hm ht
          by_cases hc : (s opts.Sender.ID).isSome = true ∧ a.Typ = "location"
          · rw [if_pos hc] at h
            by_cases hu : opts.Sender.ID = U
            · subst hu
              simp [imageFirstFrom, locationFirstFrom, firstAttachmentTyp, hm, dispatch, h,
                ht, hc.2, Event.sender]
            · have hu2 : U ≠ opts.Sender.ID := fun h => hu h.symm
              simp [imageFirstFrom, locationFirstFrom, firstAttachmentTyp, hm, dispatch, h,
                hu, Event.sender, Function.update_noteq hu2]
          · rw [if_neg hc] at h
            simp only [imageFirstFrom, locationFirstFrom, firstAttachmentTyp, hm, dispatch, h,
              Event.sender]
            refine ⟨?_, ?_, fun _ _ => trivial⟩
            · intro hi
              simp [ht] at hi
            · intro hl
              simp only [Bool.and_eq_true, beq_iff_eq, Option.some.injEq] at hl
              obtain ⟨hu, hloc⟩ := hl
              subst hu
              cases hs : s opts.Sender.ID with
              | none => rfl
              | some v => exact absurd ⟨by rw [hs]; rfl, hloc⟩ hc
  | delivered opts =>
    simp [imageFirstFrom, locationFirstFrom, firstAttachmentTyp, dispatch,
      messageDeliveredHandler, pure, Go.pure]
  | postback opts =>
    simp [imageFirstFrom, locationFirstFrom, firstAttachmentTyp, dispatch,
      postbackHandler, pure, Go.pure]
  | authentication opts =>
    simp [imageFirstFrom, locationFirstFrom, firstAttachmentTyp, dispatch,
      authenticationHandler, pure, Go.pure]

/-- The entry of `U` after a history, from any starting store. -/
theorem run_entry (U : String) (history : List (Env × Event)) (s : State) :
    ((run history s) U).isSome =
      (pendingBySpec U history ||
        (history.all (fun e => !(imageFirstFrom U e.2 || locationFirstFrom U e.2)) &&
          (s U).isSome)) := by
  induction history generalizing s with
  | nil => simp [run, pendingBySpec]
  | cons e later ih =>
    obtain ⟨env, ev⟩ := e
    obtain ⟨himg, hloc, hother⟩ := dispatch_entry U env ev s
    simp only [run, pendingBySpec, List.all_cons]
    rw [ih]
    cases hi : imageFirstFrom U ev with
    | true =>
      rw [himg hi]
      cases classifiedPothole env ev <;> cases pendingBySpec U later <;>
        cases later.all (fun e => !(imageFirstFrom U e.2 || locationFirstFrom U e.2)) <;> rfl
    | false =>
      cases hl : locationFirstFrom U ev with
      | true =>
        rw [hloc hl]
        cases pendingBySpec U later <;>
          cases later.all (fun e => !(imageFirstFrom U e.2 || locationFirstFrom U e.2)) <;> rfl
      | false =>
        rw [hother hi hl]
        cases pendingBySpec U later <;>
          cases later.all (fun e => !(imageFirstFrom U e.2 || locationFirstFrom U e.2)) <;>
          cases (s U).isSome <;> rfl

/-- The handler reads only the head of `msg.Attachments`. -/
theorem messageReceivedHandler_head (env : Env) (opts : MessageOpts) (msg : ReceivedMessage)
    (first : Option Attachment) (rest : List (Option Attachment)) (s : State)
    (hm : msg.Attachments = first :: rest) :
    messageReceivedHandler env opts msg s = messageReceivedHandler env opts ⟨"", [first]⟩ s := by
  have hh : ∀ s1, handleImageAttachment env opts msg s1
      = handleImageAttachment env opts ⟨"", [first]⟩ s1 := by
    intro s1
    unfold handleImageAttachment
    simp only [hm]
  cases first with
  | none =>
    rw [messageReceivedHandler_nil_first env opts msg rest s hm,
      messageReceivedHandler_nil_first env opts ⟨"", [none]⟩ [] s rfl]
  | some a =>
    by_cases ht : a.Typ = "image"
    · rw [messageReceivedHandler_image env opts msg a rest s hm ht,
        messageReceivedHandler_image env opts ⟨"", [some a]⟩ a [] s rfl ht, hh]
    · rw [messageReceivedHandler_other env opts msg a rest s hm ht,
        messageReceivedHandler_other env opts ⟨"", [some a]⟩ a [] s rfl ht]

/-- The store after one event is one of three: unchanged, the sender cleared, or
the sender cleared and then marked. -/
theorem dispatch_state_cases (env : Env) (ev : Event) (s : State) :
    ((dispatch env ev s).state = s ∧ ∀ s1, s1 ev.sender = s ev.sender →
        (dispatch env ev s1).state = s1) ∨
    ((dispatch env ev s).state = Function.update s ev.sender none ∧
      ∀ s1, s1 ev.sender = none → (dispatch env ev s1).state = s1) ∨
    (∀ s1, (dispatch env ev s1).state =
      Function.update (Function.update s1 ev.sender none) ev.sender (some ev.sender)) := by
  cases ev with
  | message opts msg =>
    simp only [dispatch, Event.sender]
    cases hm : msg.Attachments with
    | nil =>
      left
      refine ⟨?_, fun s1 _ => ?_⟩ <;>
        rw [messageReceivedHandler_no_attachment env opts msg _ hm, sendUsage_eq]
    | cons first rest =>
      cases first with
      | none =>
        left
        refine ⟨?_, fun s1 _ => ?_⟩ <;>
          rw [messageReceivedHandler_nil_first env opts msg rest _ hm]
      | some a =>
        by_cases ht : a.Typ = "image"
        · rcases messageReceivedHandler_image_cases env opts msg a rest s emptyState hm ht with
            ⟨r, h1, _, h3, _⟩ | ⟨b, e, h1, _, h3, _⟩ | ⟨h1, _, h3, _⟩ | ⟨h1, _, h3, _⟩
          · right; left
            refine ⟨h3, fun s1 hs1 => ?_⟩
            rcases messageReceivedHandler_image_cases env opts msg a rest s1 emptyState hm ht with
              ⟨_, _, _, h3, _⟩ | ⟨_, _, _, _, h3, _⟩ | ⟨_, _, h3, _⟩ | ⟨h1', _, _, _⟩
            · rw [h3, ← hs1]; exact Function.update_eq_self _ _
            · rw [h3, ← hs1]; exact Function.update_eq_self _ _
            · rw [h3, ← hs1]; exact Function.update_eq_self _ _
            · rw [h1] at h1'; cases h1'
          · right; left
            refine ⟨h3, fun s1 hs1 => ?_⟩
            rcases messageReceivedHandler_image_cases env opts msg a rest s1 emptyState hm ht with
              ⟨_, _, _, h3, _⟩ | ⟨_, _, _, _, h3, _⟩ | ⟨_, _, h3, _⟩ | ⟨h1', _, _, _⟩
            · rw [h3, ← hs1]; exact Function.update_eq_self _ _
            · rw [h3, ← hs1]; exact Function.update_eq_self _ _
            · rw [h3, ← hs1]; exact Function.update_eq_self _ _
            · rw [h1] at h1'; cases h1'
          · right; left
            refine ⟨h3, fun s1 hs1 => ?_⟩
            rcases messageReceivedHandler_image_cases env opts msg a rest s1 emptyState hm ht with
              ⟨_, _, _, h3, _⟩ | ⟨_, _, _, _, h3, _⟩ | ⟨_, _, h3, _⟩ | ⟨h1', _, _, _⟩
            · rw [h3, ← hs1]; exact Function.update_eq_self _ _
            · rw [h3, ← hs1]; exact Function.update_eq_self _ _
            · rw [h3, ← hs1]; exact Function.update_eq_self _ _
            · rw [h1] at h1'; cases h1'
          · right; right
            intro s1
            rcases messageReceivedHandler_image_cases env opts msg a rest s1 emptyState hm ht with
              ⟨_, h1', _⟩ | ⟨_, _, h1', _⟩ | ⟨h1', _⟩ | ⟨_, _, h3, _⟩
            · rw [h1] at h1'; cases h1'
            · rw [h1] at h1'; cases h1'
            · rw [h1] at h1'; cases h1'
            · exact h3
        · by_cases hc : (s opts.Sender.ID).isSome = true ∧ a.Typ = "location"
          · right; left
            refine ⟨?_, fun s1 hs1 => ?_⟩
            · rw [messageReceivedHandler_other env opts msg a rest s hm ht, if_pos hc]
            · rw [messageReceivedHandler_other env opts msg a rest s1 hm ht, if_neg]
              rw [hs1]
              simp
          · left
            refine ⟨?_, fun s1 hs1 => ?_⟩
            · rw [messageReceivedHandler_other env opts msg a rest s hm ht, if_neg hc]
            · rw [messageReceivedHandler_other env opts msg a rest s1 hm ht, if_neg]
              rw [hs1]
              exact hc
  | delivered opts => left; exact ⟨rfl, fun _ _ => rfl⟩
  | postback opts => left; exact ⟨rfl, fun _ _ => rfl⟩
  | authentication opts => left; exact ⟨rfl, fun _ _ => rfl⟩

theorem getenv_eq_empty_iff (environ : String → Option String) (key : String) :
    getenv environ key = "" ↔ unsetOrEmpty environ key := by
  unfold getenv unsetOrEmpty
  cases h : environ key with
  | none => simp
  | some v => simp

theorem lockScoped_append (p : LockPhase) (t1 t2 : List Effect)
    (h1 : lockScoped p t1 = true) (h2 : lockScoped LockPhase.free t2 = true) :
    lockScoped p (t1 ++ t2) = true := by
  induction t1 generalizing p with
  | nil =>
    simp only [lockScoped, decide_eq_true_eq] at h1
    rw [h1]
    exact h2
  | cons e rest ih =>
    simp only [lockScoped, List.cons_append] at h1 ⊢
    cases hn : p.next e with
    | none => rw [hn] at h1; cases h1
    | some q =>
      rw [hn] at h1
      exact ih q h1

theorem lockScoped_isPotholePicture (env : Env) (att : Option Attachment) (s : State) :
    lockScoped LockPhase.free (isPotholePicture env att s).trace = true := by
  rcases isPotholePicture_trace env att s with h | ⟨url, h⟩ <;> rw [h] <;> rfl

theorem lockScoped_handleImageAttachment (env : Env) (opts : MessageOpts)
    (msg : ReceivedMessage) (s : State) :
    lockScoped LockPhase.free (handleImageAttachment env opts msg s).trace = true := by
  cases hm : msg.Attachments with
  | nil =>
    unfold handleImageAttachment
    simp only [hm]
    rfl
  | cons first rest =>
    have hp := lockScoped_isPotholePicture env first s
    rcases hr : isPotholePicture env first s with ⟨o, s1, t⟩
    rw [hr] at hp
    cases o with
    | panic r =>
      rw [handleImageAttachment_panic env opts msg first rest s s1 r t hm hr]
      exact hp
    | ret v =>
      obtain ⟨b, err⟩ := v
      cases err with
      | some e =>
        rw [handleImageAttachment_error env opts msg first rest s s1 b e t hm hr]
        exact lockScoped_append _ _ _ hp rfl
      | none =>
        cases b with
        | false =>
          rw [handleImageAttachment_false env opts msg first rest s s1 t hm hr,
            sendNotStupid_eq]
          exact lockScoped_append _ _ _ hp rfl
        | true =>
          rw [handleImageAttachment_true env opts msg first rest s s1 t hm hr]
          exact lockScoped_append _ _ _ hp rfl

theorem lockScoped_messageReceivedHandler (env : Env) (opts : MessageOpts)
    (msg : ReceivedMessage) (s : State) :
    lockScoped LockPhase.free (messageReceivedHandler env opts msg s).trace = true := by
  cases hm : msg.Attachments with
  | nil =>
    rw [messageReceivedHandler_no_attachment env opts msg s hm, sendUsage_eq]
    rfl
  | cons first rest =>
    cases first with
    | none =>
      rw [messageReceivedHandler_nil_first env opts msg rest s hm]
      rfl
    | some a =>
      by_cases ht : a.Typ = "image"
      · rw [messageReceivedHandler_image env opts msg a rest s hm ht]
        refine lockScoped_append _ _ _ ?_ (lockScoped_handleImageAttachment env opts msg _)
        cases (s opts.Sender.ID).isSome <;> rfl
      · rw [messageReceivedHandler_other env opts msg a rest s hm ht]
        split <;> rfl

theorem Conc.agrees_update_other (c : Conc) (i : Nat) (rest : List Effect) (h : Option Nat)
    (hagree : c.agrees)
    (hi : if h = some i then
        lockScoped LockPhase.acquired rest = true ∨ lockScoped LockPhase.used rest = true
      else lockScoped LockPhase.free rest = true)
    (hother : ∀ j, j ≠ i → (h = some j ↔ c.holder = some j)) :
    Conc.agrees ⟨h, Function.update c.todo i rest⟩ := by
  intro j
  by_cases hj : j = i
  · subst hj
    simp only [Function.update_same]
    exact hi
  · have := hagree j
    simp only [Function.update_noteq hj]
    by_cases hh : h = some j
    · rw [if_pos hh]
      rw [if_pos ((hother j hj).mp hh)] at this
      exact this
    · rw [if_neg hh]
      rw [if_neg (fun hc => hh ((hother j hj).mpr hc))] at this
      exact this

theorem Conc.step_safe (c : Conc) (hagree : c.agrees) (i : Nat) (e : Effect) (c1 : Conc)
    (hs : c.step i = some (e, c1)) :
    heldAsRequired (i, e, c.holder) = true ∧ c1.agrees := by
  have hi := hagree i
  unfold Conc.step at hs
  cases htodo : c.todo i with
  | nil => rw [htodo] at hs; cases hs
  | cons e0 rest =>
    rw [htodo] at hs hi
    by_cases hh : c.holder = some i
    · rw [if_pos hh] at hi
      cases e0 <;>
        simp only [lockScoped, LockPhase.next, Bool.false_eq_true, or_false, false_or,
          or_self] at hi
      all_goals
        simp only [hh, Option.some.injEq, Prod.mk.injEq, if_false, reduceCtorEq] at hs
        obtain ⟨rfl, rfl⟩ := hs
        refine ⟨by simp [heldAsRequired, hh], ?_⟩
        refine Conc.agrees_update_other c i rest _ hagree ?_ ?_
        · simp [hi, hh]
        · intro j hj
          first
            | exact Iff.rfl
            | (rw [hh]
               constructor
               · intro h; cases h
               · intro h; exact absurd (Option.some.inj h).symm hj)
            | rw [hh]
    · rw [if_neg hh] at hi
      cases e0 <;> simp only [lockScoped, LockPhase.next, Bool.false_eq_true] at hi
      · -- lock
        by_cases hn : c.holder = none
        · simp only [hn, if_true, Option.some.injEq, Prod.mk.injEq] at hs
          obtain ⟨rfl, rfl⟩ := hs
          refine ⟨by simp [heldAsRequired, hn], ?_⟩
          refine Conc.agrees_update_other c i rest _ hagree ?_ ?_
          · simp only [if_true, hi, true_or]
          · intro j hj
            rw [hn]
            constructor
            · intro h; exact absurd (Option.some.inj h).symm hj
            · intro h; cases h
        · simp only [hn, if_false, reduceCtorEq] at hs
      all_goals
        simp only [Option.some.injEq, Prod.mk.injEq] at hs
        obtain ⟨rfl, rfl⟩ := hs
        refine ⟨by simp [heldAsRequired, hh], ?_⟩
        refine Conc.agrees_update_other c i rest _ hagree ?_ ?_
        · simp only [hh, if_false, hi]
        · intro j hj
          exact Iff.rfl

theorem Conc.exec_safe (schedule : List Nat) (c : Conc) (hagree : c.agrees) :
    ∀ entry ∈ Conc.exec schedule c, heldAsRequired entry = true := by
  induction schedule generalizing c with
  | nil =>
    intro entry h
    simp [Conc.exec] at h
  | cons i rest ih =>
    intro entry h
    unfold Conc.exec at h
    cases hs : c.step i with
    | none =>
      rw [hs] at h
      exact ih c hagree entry h
    | some r =>
      obtain ⟨e, c1⟩ := r
      rw [hs] at h
      obtain ⟨hsafe, hagree1⟩ := Conc.step_safe c hagree i e c1 hs
      rcases List.mem_cons.mp h with rfl | h
      · exact hsafe
      · exact ih c1 hagree1 entry h

/-! ## Classification rule -/

/-- Claim C1, as stated, fails: the concepts of a response with two outputs
contain a `"pothole"` with confidence 0.9375, above 0.8, in the second output,
and `isPotholePicture` returns `(false, nil)`, because it reads the first output
only. -/
theorem isPotholePicture_ignores_later_outputs :
    (∃ o ∈ respPotholeSecondOutput.Outputs, ∃ c ∈ o.Data.Concepts,
      c.Name = "pothole" ∧ c.Value.value = FloatValue.finite (15 / 16) ∧
      (4 / 5 : ℚ) < 15 / 16) ∧
    (isPotholePicture (envOf (Except.ok respPotholeSecondOutput)) (some imageAttachment)
      emptyState).outcome = Outcome.ret (false, none) := by
  constructor
  · refine ⟨⟨⟨[⟨"pothole", conf09375⟩]⟩⟩, ?_, ⟨"pothole", conf09375⟩, ?_, rfl, rfl, by norm_num⟩
    · simp [respPotholeSecondOutput]
    · simp
  · rw [isPotholePicture_reached (envOf (Except.ok respPotholeSecondOutput)) imageAttachment
      emptyState [("url", Iface.str "http://example.org/road.jpg")]
      "http://example.org/road.jpg" rfl rfl]
    have h : rangeConcepts [⟨"car", conf09375⟩] = (false, none) := by
      rcases rangeConcepts_cases [⟨"car", conf09375⟩] with h | h
      · obtain ⟨c, hc, hn, _⟩ := (rangeConcepts_true_iff _).mp h
        rw [List.mem_singleton.mp hc] at hn
        exact absurd hn (by decide)
      · exact h
    simp only [envOf, respPotholeSecondOutput, h]

/-- Claim C1, amended. When the classifier is reached and answers without error
with at least one output, `isPotholePicture` returns `(true, nil)` exactly when
the concepts of the first output contain a concept named `"pothole"` whose
confidence Go finds greater than the constant `0.8`: an infinity, or a finite
value above the value of its format nearest to 0.8. When every concept of the
first output has another name, or is the float `0.8` itself, a NaN, or at most
0.8, it returns `(false, nil)`. For the values of a format, to be above the
constant is to be above 0.8 and not to be the float `0.8`. -/
theorem isPotholePicture_true_iff_first_output_pothole (env : Env) (a : Attachment)
    (s : State) (payload : List (String × Iface)) (url : String) (resp : Response)
    (output : Output) (others : List Output)
    (hp : a.Payload = Iface.obj payload) (hu : payload.lookup "url" = some (Iface.str url))
    (hr : env.predict "Stuff" url = Except.ok resp) (ho : resp.Outputs = output :: others) :
    ((isPotholePicture env (some a) s).outcome = Outcome.ret (true, none) ↔
      ∃ c ∈ output.Data.Concepts, c.Name = "pothole" ∧
        (c.Value.value = FloatValue.posInf ∨
          ∃ q, c.Value.value = FloatValue.finite q ∧ floatConst08 c.Value.format < q)) ∧
    ((∀ c ∈ output.Data.Concepts, c.Name ≠ "pothole" ∨
        c.Value.value = FloatValue.finite (floatConst08 c.Value.format) ∨
        c.Value.value = FloatValue.nan ∨
        ∃ q, c.Value.value = FloatValue.finite q ∧ q ≤ 4 / 5) →
      (isPotholePicture env (some a) s).outcome = Outcome.ret (false, none)) ∧
    (∀ (fmt : FloatFormat) (q : ℚ), fmt.represents q →
      (floatConst08 fmt < q ↔ 4 / 5 < q ∧ q ≠ floatConst08 fmt)) := by
  rw [isPotholePicture_reached env a s payload url hp hu]
  simp only [hr, ho]
  refine ⟨?_, ?_, ?_⟩
  · simp only [← FloatValue.gt_finite_iff]
    rw [← rangeConcepts_true_iff]
    constructor
    · intro h
      exact Outcome.ret.inj h
    · intro h
      rw [h]
  · intro hall
    rcases rangeConcepts_cases output.Data.Concepts with h | h
    · exfalso
      obtain ⟨c, hc, hn, hv⟩ := (rangeConcepts_true_iff _).mp h
      rw [FloatValue.gt_finite_iff] at hv
      rcases hall c hc with h1 | h1 | h1 | ⟨q, h1, hq⟩
      · exact h1 hn
      · rcases hv with hv | ⟨r, hv, hlt⟩
        · rw [h1] at hv; cases hv
        · rw [h1] at hv
          cases hv
          exact lt_irrefl _ hlt
      · rcases hv with hv | ⟨r, hv, _⟩ <;> rw [h1] at hv <;> cases hv
      · rcases hv with hv | ⟨r, hv, hlt⟩
        · rw [h1] at hv; cases hv
        · rw [h1] at hv
          cases hv
          have := four_fifths_lt_floatConst08 c.Value.format
          linarith
    · rw [h]
  · intro fmt q hrep
    constructor
    · intro h
      exact ⟨lt_trans (four_fifths_lt_floatConst08 fmt) h, ne_of_gt h⟩
    · rintro ⟨h1, h2⟩
      rcases lt_trichotomy q (floatConst08 fmt) with h | h | h
      · exact (no_float_between fmt q hrep h1 h).elim
      · exact absurd h h2
      · exact h

/-- Witness of C1: the concept `("pothole", 0.9375)` is classified as a pothole,
and the concept `("pothole", 0.8)`, the `float64` that `0.8` denotes, is not. -/
theorem isPotholePicture_true_iff_first_output_pothole_witness :
    (isPotholePicture (envOf (Except.ok respPothole)) (some imageAttachment) emptyState).outcome
      = Outcome.ret (true, none) ∧
    (isPotholePicture (envOf (Except.ok respPotholeAt08)) (some imageAttachment)
      emptyState).outcome = Outcome.ret (false, none) :=
  ⟨(isPotholePicture_true_iff_first_output_pothole (envOf (Except.ok respPothole))
      imageAttachment emptyState [("url", Iface.str "http://example.org/road.jpg")]
      "http://example.org/road.jpg" respPothole ⟨⟨[⟨"pothole", conf09375⟩]⟩⟩ []
      rfl rfl rfl rfl).1.2
      ⟨⟨"pothole", conf09375⟩, List.mem_singleton.mpr rfl, rfl,
        Or.inr ⟨15 / 16, rfl, by
          show floatConst08 FloatFormat.float64 < 15 / 16
          rw [floatConst08_float64]
          norm_num⟩⟩,
   (isPotholePicture_true_iff_first_output_pothole (envOf (Except.ok respPotholeAt08))
      imageAttachment emptyState [("url", Iface.str "http://example.org/road.jpg")]
      "http://example.org/road.jpg" respPotholeAt08 ⟨⟨[⟨"pothole", conf08⟩]⟩⟩ []
      rfl rfl rfl rfl).2.1
      (by
        intro c hc
        rw [List.mem_singleton.mp hc]
        refine Or.inr (Or.inl ?_)
        show FloatValue.finite (3602879701896397 / 4503599627370496)
          = FloatValue.finite (floatConst08 FloatFormat.float64)
        rw [floatConst08_float64])⟩

/-- Claim C2, as stated, fails: a response with one output and zero concepts is
not reported as a failure; `isPotholePicture` returns `(false, nil)` and the user
gets the not-a-pothole reply. -/
theorem isPotholePicture_zero_concepts_not_failure :
    (respNoConcepts.Outputs.map (fun o => o.Data.Concepts.length) = [0]) ∧
    (isPotholePicture (envOf (Except.ok respNoConcepts)) (some imageAttachment)
      emptyState).outcome = Outcome.ret (false, none) ∧
    replies (messageReceivedHandler (envOf (Except.ok respNoConcepts)) userU
      ⟨"", [some imageAttachment]⟩ emptyState).trace
      = [("U", "I'm educated. That is no pothole!")] := by
  have h : (isPotholePicture (envOf (Except.ok respNoConcepts)) (some imageAttachment)
      emptyState).outcome = Outcome.ret (false, none) := rfl
  refine ⟨rfl, h, ?_⟩
  rcases messageReceivedHandler_image_cases (envOf (Except.ok respNoConcepts)) userU
    ⟨"", [some imageAttachment]⟩ imageAttachment [] emptyState emptyState rfl rfl with
    ⟨r, h1, _⟩ | ⟨b, e, h1, _⟩ | ⟨_, _, _, h4⟩ | ⟨h1, _⟩
  · rw [h] at h1; cases h1
  · rw [h] at h1; cases h1
  · exact h4
  · rw [h] at h1; cases h1

/-- Claim C2, amended. A response with zero outputs is a classification failure:
`isPotholePicture` returns the error "No outputs from clarify" and the handler
sends the apology. A response whose first output has zero concepts is not a
failure: `isPotholePicture` returns `(false, nil)` and the handler sends the
not-a-pothole reply. -/
theorem isPotholePicture_zero_outputs_failure (env : Env) (opts : MessageOpts)
    (msg : ReceivedMessage) (a : Attachment) (rest : List (Option Attachment)) (s : State)
    (payload : List (String × Iface)) (url : String) (resp : Response)
    (hm : msg.Attachments = some a :: rest) (ht : a.Typ = "image")
    (hp : a.Payload = Iface.obj payload) (hu : payload.lookup "url" = some (Iface.str url))
    (hr : env.predict "Stuff" url = Except.ok resp) :
    (resp.Outputs = [] →
      (isPotholePicture env (some a) s).outcome
        = Outcome.ret (false, some "No outputs from clarify") ∧
      replies (messageReceivedHandler env opts msg s).trace = [(opts.Sender.ID,
        "Sorry. I lost my glasses and I'm having trouble looking at the picture.")]) ∧
    (∀ output others, resp.Outputs = output :: others → output.Data.Concepts = [] →
      (isPotholePicture env (some a) s).outcome = Outcome.ret (false, none) ∧
      replies (messageReceivedHandler env opts msg s).trace = [(opts.Sender.ID,
        match env.getProfile opts.Sender.ID with
        | Except.ok profile => profile.FirstName ++ " - " ++ "I'm educated. That is no pothole!"
        | Except.error _ => "I'm educated. That is no pothole!")]) := by
  constructor
  · intro ho
    have h : (isPotholePicture env (some a) s).outcome
        = Outcome.ret (false, some "No outputs from clarify") := by
      rw [isPotholePicture_reached env a s payload url hp hu]
      simp only [hr, ho]
    refine ⟨h, ?_⟩
    rcases messageReceivedHandler_image_cases env opts msg a rest s s hm ht with
      ⟨r, h1, _⟩ | ⟨b, e, _, _, _, h4⟩ | ⟨h1, _⟩ | ⟨h1, _⟩
    · rw [h] at h1; cases h1
    · exact h4
    · rw [h] at h1; cases h1
    · rw [h] at h1; cases h1
  · intro output others ho hc
    have h : (isPotholePicture env (some a) s).outcome = Outcome.ret (false, none) := by
      rw [isPotholePicture_reached env a s payload url hp hu]
      simp only [hr, ho, hc]
      rfl
    refine ⟨h, ?_⟩
    rcases messageReceivedHandler_image_cases env opts msg a rest s s hm ht with
      ⟨r, h1, _⟩ | ⟨b, e, h1, _⟩ | ⟨_, _, _, h4⟩ | ⟨h1, _⟩
    · rw [h] at h1; cases h1
    · rw [h] at h1; cases h1
    · exact h4
    · rw [h] at h1; cases h1

/-- Witness of the amended C2: a response without outputs gives the error and the
apology. -/
theorem isPotholePicture_zero_outputs_failure_witness :
    (isPotholePicture (envOf (Except.ok respNoOutputs)) (some imageAttachment)
      emptyState).outcome = Outcome.ret (false, some "No outputs from clarify") ∧
    replies (messageReceivedHandler (envOf (Except.ok respNoOutputs)) userU
      ⟨"", [some imageAttachment]⟩ emptyState).trace
      = [("U", "Sorry. I lost my glasses and I'm having trouble looking at the picture.")] :=
  (isPotholePicture_zero_outputs_failure (envOf (Except.ok respNoOutputs)) userU
    ⟨"", [some imageAttachment]⟩ imageAttachment [] emptyState
    [("url", Iface.str "http://example.org/road.jpg")] "http://example.org/road.jpg"
    respNoOutputs rfl rfl rfl rfl rfl).1 rfl


/-! ## The router, one message at a time -/

/-- Claim C3. After `messageReceivedHandler` has processed a message whose first
attachment has type `"image"`, from any store, the sender is pending exactly when
the classification of that attachment returned `(true, nil)`. -/
theorem image_message_pending_iff_classified_pothole (env : Env) (opts : MessageOpts)
    (msg : ReceivedMessage) (a : Attachment) (rest : List (Option Attachment)) (s w : State)
    (hm : msg.Attachments = some a :: rest) (ht : a.Typ = "image") :
    (hasPendingPicture opts.Sender.ID (messageReceivedHandler env opts msg s).state).outcome
        = Outcome.ret true ↔
      (isPotholePicture env (some a) w).outcome = Outcome.ret (true, none) := by
  rw [hasPendingPicture_eq]
  rcases messageReceivedHandler_image_cases env opts msg a rest s w hm ht with
    ⟨r, h1, _, h3, _⟩ | ⟨b, e, h1, _, h3, _⟩ | ⟨h1, _, h3, _⟩ | ⟨h1, _, h3, _⟩ <;>
  simp [h1, h3]

/-- Witness of C3: a pending user whose new image is not classified (the
classifier errors) is no longer pending. -/
theorem image_message_pending_iff_classified_pothole_witness :
    ((hasPendingPicture "U" (messageReceivedHandler (envOf (Except.error "timeout")) userU
        ⟨"", [some imageAttachment]⟩ pendingU).state).outcome = Outcome.ret true ↔
      (isPotholePicture (envOf (Except.error "timeout")) (some imageAttachment)
        emptyState).outcome = Outcome.ret (true, none)) :=
  image_message_pending_iff_classified_pothole (envOf (Except.error "timeout")) userU
    ⟨"", [some imageAttachment]⟩ imageAttachment [] pendingU emptyState rfl rfl

/-- Claim C4. For a message whose first attachment has type `"image"`, the reply
is fixed by what `isPotholePicture` returns, whatever the store: the apology when
it returns an error, the not-a-pothole message when it returns `(false, nil)`,
the request for the location when it returns `(true, nil)`. -/
theorem image_message_reply_by_classification (env : Env) (opts : MessageOpts)
    (msg : ReceivedMessage) (a : Attachment) (rest : List (Option Attachment)) (s w : State)
    (hm : msg.Attachments = some a :: rest) (ht : a.Typ = "image") :
    (∀ b e, (isPotholePicture env (some a) w).outcome = Outcome.ret (b, some e) →
      replies (messageReceivedHandler env opts msg s).trace = [(opts.Sender.ID,
        "Sorry. I lost my glasses and I'm having trouble looking at the picture.")]) ∧
    ((isPotholePicture env (some a) w).outcome = Outcome.ret (false, none) →
      replies (messageReceivedHandler env opts msg s).trace = [(opts.Sender.ID,
        match env.getProfile opts.Sender.ID with
        | Except.ok profile => profile.FirstName ++ " - " ++ "I'm educated. That is no pothole!"
        | Except.error _ => "I'm educated. That is no pothole!")]) ∧
    ((isPotholePicture env (some a) w).outcome = Outcome.ret (true, none) →
      replies (messageReceivedHandler env opts msg s).trace = [(opts.Sender.ID,
        "Thanks for letting us know about the pot hole - can you send your location?")]) := by
  rcases messageReceivedHandler_image_cases env opts msg a rest s w hm ht with
    ⟨r, h1, _, _, h4⟩ | ⟨b, e, h1, _, _, h4⟩ | ⟨h1, _, _, h4⟩ | ⟨h1, _, _, h4⟩
  · refine ⟨fun b e h => ?_, fun h => ?_, fun h => ?_⟩ <;> rw [h1] at h <;> cases h
  · refine ⟨fun _ _ _ => h4, fun h => ?_, fun h => ?_⟩ <;> rw [h1] at h <;> cases h
  · refine ⟨fun b e h => ?_, fun _ => h4, fun h => ?_⟩ <;> rw [h1] at h <;> cases h
  · refine ⟨fun b e h => ?_, fun h => ?_, fun _ => h4⟩ <;> rw [h1] at h <;> cases h

/-- Witness of C4: a pending user sends a car picture and gets the not-a-pothole
reply. -/
theorem image_message_reply_by_classification_witness :
    replies (messageReceivedHandler (envOf (Except.ok respCar)) userU
      ⟨"look", [some imageAttachment]⟩ pendingU).trace
      = [("U", "I'm educated. That is no pothole!")] :=
  (image_message_reply_by_classification (envOf (Except.ok respCar)) userU
    ⟨"look", [some imageAttachment]⟩ imageAttachment [] pendingU emptyState rfl rfl).2.1
    (by
      simp [isPotholePicture, imageAttachment, envOf, respCar, predictDo, rangeConcepts,
        bind, Go.bind, pure, Go.pure])

/-- Claim C5. A pending user who sends a message whose first attachment has type
`"location"` is not pending afterwards, the handler returns normally and the one
reply is the dispatch acknowledgement. -/
theorem location_message_from_pending_user (env : Env) (opts : MessageOpts)
    (msg : ReceivedMessage) (a : Attachment) (rest : List (Option Attachment)) (s : State)
    (hm : msg.Attachments = some a :: rest) (ht : a.Typ = "location")
    (hpend : (hasPendingPicture opts.Sender.ID s).outcome = Outcome.ret true) :
    (messageReceivedHandler env opts msg s).outcome = Outcome.ret () ∧
    (hasPendingPicture opts.Sender.ID (messageReceivedHandler env opts msg s).state).outcome
      = Outcome.ret false ∧
    replies (messageReceivedHandler env opts msg s).trace
      = [(opts.Sender.ID, "We'll send our crews out there! Stay tuned!")] := by
  have hni : a.Typ ≠ "image" := by rw [ht]; decide
  have hs : (s opts.Sender.ID).isSome = true := by
    rw [hasPendingPicture_eq] at hpend
    exact Outcome.ret.inj hpend
  rw [messageReceivedHandler_other env opts msg a rest s hm hni, if_pos ⟨hs, ht⟩,
    hasPendingPicture_eq]
  refine ⟨rfl, ?_, rfl⟩
  simp

/-- Witness of C5: pending user `"U"` sends a location. -/
theorem location_message_from_pending_user_witness :
    (messageReceivedHandler (envOf (Except.ok respCar)) userU
      ⟨"", [some locationAttachment]⟩ pendingU).outcome = Outcome.ret () ∧
    (hasPendingPicture "U" (messageReceivedHandler (envOf (Except.ok respCar)) userU
      ⟨"", [some locationAttachment]⟩ pendingU).state).outcome = Outcome.ret false ∧
    replies (messageReceivedHandler (envOf (Except.ok respCar)) userU
      ⟨"", [some locationAttachment]⟩ pendingU).trace
      = [("U", "We'll send our crews out there! Stay tuned!")] :=
  location_message_from_pending_user (envOf (Except.ok respCar)) userU
    ⟨"", [some locationAttachment]⟩ locationAttachment [] pendingU rfl rfl (by decide)

/-- Claim C6. A message whose first attachment has a type `T` other than `"image"`,
and that is not a `"location"` from a pending sender, is answered
"Thanks for sending me a T"; the handler returns normally and the store is
exactly as before. -/
theorem other_attachment_generic_reply (env : Env) (opts : MessageOpts)
    (msg : ReceivedMessage) (a : Attachment) (rest : List (Option Attachment)) (s : State)
    (hm : msg.Attachments = some a :: rest) (ht : a.Typ ≠ "image")
    (hl : ¬ (a.Typ = "location" ∧
      (hasPendingPicture opts.Sender.ID s).outcome = Outcome.ret true)) :
    (messageReceivedHandler env opts msg s).outcome = Outcome.ret () ∧
    (messageReceivedHandler env opts msg s).state = s ∧
    replies (messageReceivedHandler env opts msg s).trace
      = [(opts.Sender.ID, "Thanks for sending me a " ++ a.Typ)] := by
  have hn : ¬ ((s opts.Sender.ID).isSome = true ∧ a.Typ = "location") := by
    rintro ⟨h1, h2⟩
    exact hl ⟨h2, by rw [hasPendingPicture_eq, h1]⟩
  rw [messageReceivedHandler_other env opts msg a rest s hm ht, if_neg hn]
  exact ⟨rfl, rfl, rfl⟩

/-- Witness of C6: a pending user who sends a video stays pending. -/
theorem other_attachment_generic_reply_witness :
    (messageReceivedHandler (envOf (Except.ok respCar)) userU
      ⟨"", [some videoAttachment]⟩ pendingU).outcome = Outcome.ret () ∧
    (messageReceivedHandler (envOf (Except.ok respCar)) userU
      ⟨"", [some videoAttachment]⟩ pendingU).state = pendingU ∧
    replies (messageReceivedHandler (envOf (Except.ok respCar)) userU
      ⟨"", [some videoAttachment]⟩ pendingU).trace
      = [("U", "Thanks for sending me a " ++ "video")] :=
  other_attachment_generic_reply (envOf (Except.ok respCar)) userU
    ⟨"", [some videoAttachment]⟩ videoAttachment [] pendingU rfl (by decide)
    (fun h => absurd h.1 (by decide))

/-- Claim C7. A message with zero attachments gets the usage reply (with the first
name when the profile lookup succeeds, without it otherwise); the handler
returns normally, the store is unchanged and no call to the classifier is made. -/
theorem no_attachment_usage_reply (env : Env) (opts : MessageOpts) (msg : ReceivedMessage)
    (s : State) (hm : msg.Attachments = []) :
    (messageReceivedHandler env opts msg s).outcome = Outcome.ret () ∧
    (messageReceivedHandler env opts msg s).state = s ∧
    replies (messageReceivedHandler env opts msg s).trace = [(opts.Sender.ID,
      match env.getProfile opts.Sender.ID with
      | Except.ok profile =>
        "Hi " ++ profile.FirstName ++ "! " ++ "Send me pictures of pot holes that you find!"
      | Except.error _ => "Hi! " ++ "Send me pictures of pot holes that you find!")] ∧
    ∀ model url, Effect.predict model url ∉ (messageReceivedHandler env opts msg s).trace := by
  rw [messageReceivedHandler_no_attachment env opts msg s hm, sendUsage_eq]
  refine ⟨rfl, rfl, rfl, ?_⟩
  intro model url hmem
  simp at hmem

/-- Witness of C7: pending user `"U"` sends plain text and stays pending. -/
theorem no_attachment_usage_reply_witness :
    (messageReceivedHandler (envOf (Except.ok respPothole)) userU ⟨"hello", []⟩
      pendingU).state = pendingU ∧
    replies (messageReceivedHandler (envOf (Except.ok respPothole)) userU ⟨"hello", []⟩
      pendingU).trace = [("U", "Hi! " ++ "Send me pictures of pot holes that you find!")] :=
  ⟨(no_attachment_usage_reply (envOf (Except.ok respPothole)) userU ⟨"hello", []⟩
      pendingU rfl).2.1,
   (no_attachment_usage_reply (envOf (Except.ok respPothole)) userU ⟨"hello", []⟩
      pendingU rfl).2.2.1⟩

/-- Claim C8, at the failing input: an image-first message whose payload is a JSON
string makes `messageReceivedHandler` panic in the type assertion of
`isPotholePicture`, after the pending entry of the sender was cleared and before
any reply is sent. -/
theorem malformed_image_payload_no_reply :
    (messageReceivedHandler (envOf (Except.ok respPothole)) userU
      ⟨"", [some malformedImage]⟩ pendingU).outcome
      = Outcome.panic "interface conversion: interface is not map[string]interface" ∧
    replies (messageReceivedHandler (envOf (Except.ok respPothole)) userU
      ⟨"", [some malformedImage]⟩ pendingU).trace = [] ∧
    (messageReceivedHandler (envOf (Except.ok respPothole)) userU
      ⟨"", [some malformedImage]⟩ pendingU).state "U" = none := by
  have h : (isPotholePicture (envOf (Except.ok respPothole)) (some malformedImage)
      emptyState).outcome
      = Outcome.panic "interface conversion: interface is not map[string]interface" := rfl
  rcases messageReceivedHandler_image_cases (envOf (Except.ok respPothole)) userU
    ⟨"", [some malformedImage]⟩ malformedImage [] pendingU emptyState rfl rfl with
    ⟨r, h1, h2, h3, h4⟩ | ⟨b, e, h1, _⟩ | ⟨h1, _⟩ | ⟨h1, _⟩
  · rw [h] at h1
    cases h1
    refine ⟨h2, h4, ?_⟩
    rw [h3]
    exact Function.update_same _ _ _
  · rw [h] at h1; cases h1
  · rw [h] at h1; cases h1
  · rw [h] at h1; cases h1

/-- Whenever `messageReceivedHandler` returns normally it has sent exactly one
text, to the sender; and the delivery, postback and authentication handlers
return without any effect on any store. -/
theorem one_reply_when_handler_returns (env : Env) (opts : MessageOpts)
    (msg : ReceivedMessage) (s : State) :
    ((messageReceivedHandler env opts msg s).outcome = Outcome.ret () →
      ∃ text, replies (messageReceivedHandler env opts msg s).trace
        = [(opts.Sender.ID, text)]) ∧
    messageDeliveredHandler opts s = ⟨Outcome.ret (), s, []⟩ ∧
    postbackHandler opts s = ⟨Outcome.ret (), s, []⟩ ∧
    authenticationHandler opts s = ⟨Outcome.ret (), s, []⟩ := by
  refine ⟨?_, rfl, rfl, rfl⟩
  intro hret
  cases hm : msg.Attachments with
  | nil =>
    rw [messageReceivedHandler_no_attachment env opts msg s hm, sendUsage_eq]
    exact ⟨_, rfl⟩
  | cons first rest =>
    cases first with
    | none =>
      rw [messageReceivedHandler_nil_first env opts msg rest s hm] at hret
      cases hret
    | some a =>
      by_cases ht : a.Typ = "image"
      · rcases messageReceivedHandler_image_cases env opts msg a rest s s hm ht with
          ⟨r, _, h2, _, _⟩ | ⟨b, e, _, _, _, h4⟩ | ⟨_, _, _, h4⟩ | ⟨_, _, _, h4⟩
        · rw [h2] at hret; cases hret
        · exact ⟨_, h4⟩
        · exact ⟨_, h4⟩
        · exact ⟨_, h4⟩
      · rw [messageReceivedHandler_other env opts msg a rest s hm ht]
        split
        · exact ⟨_, rfl⟩
        · exact ⟨_, rfl⟩


/-! ## Histories of events -/

/-- Claim C9. From the empty store, after any finite history of events processed
one after another, `hasPendingPicture U` is true exactly when the history
contains an image-first message of `U` classified as a pothole after which `U`
sent no image-first and no location-first message; and an event that is neither
an image-first nor a location-first message of `U` leaves the entry of `U` as it
was, in every store. -/
theorem pending_after_history_iff_spec (U : String) (history : List (Env × Event)) :
    (hasPendingPicture U (run history emptyState)).outcome
      = Outcome.ret (pendingBySpec U history) ∧
    (∀ env ev s, imageFirstFrom U ev = false → locationFirstFrom U ev = false →
      (dispatch env ev s).state U = s U) := by
  constructor
  · rw [hasPendingPicture_eq]
    simp only [run_entry U history emptyState, emptyState, Option.isSome_none,
      Bool.and_false, Bool.or_false]
  · intro env ev s hi hl
    exact (dispatch_entry U env ev s).2.2 hi hl

/-- Witness of C9: `"U"` reports a pothole, then sends a video, then `"V"` sends a
car picture and a location; `"U"` is pending at the end. -/
theorem pending_after_history_iff_spec_witness :
    (hasPendingPicture "U" (run
      [(envOf (Except.ok respPothole), Event.message userU ⟨"", [some imageAttachment]⟩),
       (envOf (Except.ok respCar), Event.message userU ⟨"", [some videoAttachment]⟩),
       (envOf (Except.ok respCar), Event.message userV ⟨"", [some imageAttachment]⟩),
       (envOf (Except.ok respCar), Event.message userV ⟨"", [some locationAttachment]⟩)]
      emptyState)).outcome = Outcome.ret true :=
  (pending_after_history_iff_spec "U"
    [(envOf (Except.ok respPothole), Event.message userU ⟨"", [some imageAttachment]⟩),
     (envOf (Except.ok respCar), Event.message userU ⟨"", [some videoAttachment]⟩),
     (envOf (Except.ok respCar), Event.message userV ⟨"", [some imageAttachment]⟩),
     (envOf (Except.ok respCar), Event.message userV ⟨"", [some locationAttachment]⟩)]).1.trans
    (congrArg Outcome.ret (by
      have h := isPotholePicture_respPothole
      simp [pendingBySpec, classifiedPothole, h]
      decide))

/-- Claim C10. For distinct users `U` and `V` and any store: an event sent by `V`,
`clearPendingPicture V` and the marking of `V` leave `hasPendingPicture U` as it
was; and once `U` is marked pending, `U` is still pending after any history in
which no event is an image-first or location-first message of `U`. -/
theorem other_users_do_not_interfere (U V : String) (hne : U ≠ V) (s : State) :
    (∀ env ev, ev.sender = V →
      (hasPendingPicture U (dispatch env ev s).state).outcome
        = (hasPendingPicture U s).outcome) ∧
    (hasPendingPicture U (clearPendingPicture V s).state).outcome
      = (hasPendingPicture U s).outcome ∧
    (hasPendingPicture U (markPending V s).state).outcome
      = (hasPendingPicture U s).outcome ∧
    (∀ history : List (Env × Event),
      (∀ e ∈ history, imageFirstFrom U e.2 = false ∧ locationFirstFrom U e.2 = false) →
      (hasPendingPicture U (run history (markPending U s).state)).outcome
        = Outcome.ret true) := by
  refine ⟨?_, ?_, ?_, ?_⟩
  · intro env ev hv
    have hs : (ev.sender == U) = false := by
      rw [hv]; exact beq_false_of_ne (fun h => hne h.symm)
    have hi : imageFirstFrom U ev = false := by simp [imageFirstFrom, hs]
    have hl : locationFirstFrom U ev = false := by simp [locationFirstFrom, hs]
    rw [hasPendingPicture_eq, hasPendingPicture_eq, (dispatch_entry U env ev s).2.2 hi hl]
  · rw [hasPendingPicture_eq, hasPendingPicture_eq, clearPendingPicture_eq]
    simp only [Function.update_noteq hne]
  · rw [hasPendingPicture_eq, hasPendingPicture_eq, markPending_eq]
    simp only [Function.update_noteq hne]
  · intro history hall
    rw [hasPendingPicture_eq, run_entry, markPending_eq]
    have hall2 : history.all (fun e => !(imageFirstFrom U e.2 || locationFirstFrom U e.2))
        = true := by
      rw [List.all_eq_true]
      intro e he
      obtain ⟨h1, h2⟩ := hall e he
      simp [h1, h2]
    simp only [hall2, Function.update_same, Option.isSome_some, Bool.and_true, Bool.or_true]

/-- Witness of C10: an image of `"V"` classified as a pothole does not change what
`hasPendingPicture "U"` answers. -/
theorem other_users_do_not_interfere_witness :
    (hasPendingPicture "U" (dispatch (envOf (Except.ok respPothole))
      (Event.message userV ⟨"", [some imageAttachment]⟩) pendingU).state).outcome
      = (hasPendingPicture "U" pendingU).outcome :=
  (other_users_do_not_interfere "U" "V" (by decide) pendingU).1
    (envOf (Except.ok respPothole)) (Event.message userV ⟨"", [some imageAttachment]⟩) rfl


/-! ## Algebra of the store operations -/

/-- Claim C11. Clearing `U` twice leaves the same store as clearing `U` once;
marking `U` twice leaves the same store as marking `U` once; clearing a `U` that
is absent leaves the store unchanged; and `clearPendingPicture` always returns
normally. -/
theorem clear_and_mark_idempotent (U : String) (s : State) :
    (clearPendingPicture U (clearPendingPicture U s).state).state
      = (clearPendingPicture U s).state ∧
    (markPending U (markPending U s).state).state = (markPending U s).state ∧
    (s U = none → (clearPendingPicture U s).state = s) ∧
    (clearPendingPicture U s).outcome = Outcome.ret () := by
  simp only [clearPendingPicture_eq, markPending_eq, Function.update_idem]
  refine ⟨trivial, trivial, ?_, trivial⟩
  intro h
  rw [← h]
  exact Function.update_eq_self _ _

/-- Witness of C11: clearing `"V"`, absent from the store where only `"U"` is
pending, changes nothing. -/
theorem clear_and_mark_idempotent_witness :
    (clearPendingPicture "V" pendingU).state = pendingU :=
  (clear_and_mark_idempotent "V" pendingU).2.2.1 (by decide)

/-- Claim C12. Processing the same event twice in a row, with the collaborators
answering the same both times, leaves the same store as processing it once. -/
theorem duplicate_delivery_same_store (env : Env) (ev : Event) (s : State) :
    (dispatch env ev (dispatch env ev s).state).state = (dispatch env ev s).state := by
  rcases dispatch_state_cases env ev s with ⟨h1, h2⟩ | ⟨h1, h2⟩ | h
  · rw [h1, h1]
  · exact h2 _ (by rw [h1]; exact Function.update_same _ _ _)
  · rw [h (dispatch env ev s).state, h s]
    simp only [Function.update_idem]

/-- Claim C13. In the store made at startup, and in every store reached from it
by a history in which no event is sent by `U`, `hasPendingPicture U` is false. -/
theorem unseen_user_not_pending (U : String) (history : List (Env × Event))
    (hnot : ∀ e ∈ history, e.2.sender ≠ U) :
    (hasPendingPicture U emptyState).outcome = Outcome.ret false ∧
    (hasPendingPicture U (run history emptyState)).outcome = Outcome.ret false := by
  refine ⟨rfl, ?_⟩
  rw [hasPendingPicture_eq, run_entry]
  have hspec : ∀ l : List (Env × Event), (∀ e ∈ l, e.2.sender ≠ U) →
      pendingBySpec U l = false := by
    intro l
    induction l with
    | nil => intro _; rfl
    | cons e later ih =>
      intro h
      obtain ⟨env, ev⟩ := e
      have hs : (ev.sender == U) = false := beq_false_of_ne (h (env, ev) (List.mem_cons_self _ _))
      simp only [pendingBySpec, imageFirstFrom, hs, Bool.false_and, Bool.false_or]
      exact ih (fun e he => h e (List.mem_cons_of_mem _ he))
  simp [hspec history hnot, emptyState]

/-- Witness of C13: after `"V"` reports a pothole and sends a video, `"U"` is not
pending. -/
theorem unseen_user_not_pending_witness :
    (hasPendingPicture "U" (run
      [(envOf (Except.ok respPothole), Event.message userV ⟨"", [some imageAttachment]⟩),
       (envOf (Except.ok respCar), Event.message userV ⟨"", [some videoAttachment]⟩)]
      emptyState)).outcome = Outcome.ret false :=
  (unseen_user_not_pending "U"
    [(envOf (Except.ok respPothole), Event.message userV ⟨"", [some imageAttachment]⟩),
     (envOf (Except.ok respCar), Event.message userV ⟨"", [some videoAttachment]⟩)]
    (by
      intro e he
      simp only [List.mem_cons, List.mem_singleton, List.not_mem_nil, or_false] at he
      rcases he with rfl | rfl <;> decide)).2

/-! ## Personalised replies -/

/-- Claim C14. In `sendUsage` and `sendNotStupid`, when the profile lookup succeeds
with first name `N` the text sent is "Hi N! Send me pictures of pot holes that
you find!", respectively "N - I'm educated. That is no pothole!"; when the lookup
fails the text is "Hi! Send me pictures of pot holes that you find!", respectively
"I'm educated. That is no pothole!". In every case the function returns normally,
exactly one text is sent, to the sender, and the store is left as it was. -/
theorem personalization_never_fails_reply (env : Env) (opts : MessageOpts) (s : State) :
    (∀ profile, env.getProfile opts.Sender.ID = Except.ok profile →
      replies (sendUsage env opts s).trace = [(opts.Sender.ID,
        "Hi " ++ profile.FirstName ++ "! Send me pictures of pot holes that you find!")] ∧
      replies (sendNotStupid env opts s).trace = [(opts.Sender.ID,
        profile.FirstName ++ " - I'm educated. That is no pothole!")]) ∧
    (∀ err, env.getProfile opts.Sender.ID = Except.error err →
      replies (sendUsage env opts s).trace
        = [(opts.Sender.ID, "Hi! Send me pictures of pot holes that you find!")] ∧
      replies (sendNotStupid env opts s).trace
        = [(opts.Sender.ID, "I'm educated. That is no pothole!")]) ∧
    (sendUsage env opts s).outcome = Outcome.ret () ∧
    (sendNotStupid env opts s).outcome = Outcome.ret () ∧
    (sendUsage env opts s).state = s ∧ (sendNotStupid env opts s).state = s ∧
    (replies (sendUsage env opts s).trace).length = 1 ∧
    (replies (sendNotStupid env opts s).trace).length = 1 := by
  have e1 : "! " ++ "Send me pictures of pot holes that you find!"
      = "! Send me pictures of pot holes that you find!" := by decide
  have e2 : "Hi! " ++ "Send me pictures of pot holes that you find!"
      = "Hi! Send me pictures of pot holes that you find!" := by decide
  have e3 : " - " ++ "I'm educated. That is no pothole!"
      = " - I'm educated. That is no pothole!" := by decide
  rw [sendUsage_eq, sendNotStupid_eq]
  refine ⟨?_, ?_, rfl, rfl, rfl, rfl, rfl, rfl⟩
  · intro profile h
    simp only [h, replies, String.append_assoc, e1, e3, and_self]
  · intro err h
    simp only [h, replies, e2, and_self]

/-- Witness of C14: the lookup answers first name `"Ada"`. -/
theorem personalization_never_fails_reply_witness :
    replies (sendUsage (envNamed (Except.ok respCar)) userU emptyState).trace
      = [("U", "Hi " ++ "Ada" ++ "! Send me pictures of pot holes that you find!")] ∧
    replies (sendNotStupid (envNamed (Except.ok respCar)) userU emptyState).trace
      = [("U", "Ada" ++ " - I'm educated. That is no pothole!")] :=
  (personalization_never_fails_reply (envNamed (Except.ok respCar)) userU emptyState).1
    ⟨"Ada"⟩ rfl

/-! ## Only the first attachment decides -/

/-- Claim C18. Two messages of the same sender, processed from the same store with
the same collaborators, that have the same first attachment and differ in their
text and in their later attachments, give the same outcome, the same store and
the same effects, hence the same reply. -/
theorem only_first_attachment_decides (env : Env) (opts : MessageOpts)
    (msg1 msg2 : ReceivedMessage) (first : Option Attachment)
    (rest1 rest2 : List (Option Attachment)) (s : State)
    (h1 : msg1.Attachments = first :: rest1) (h2 : msg2.Attachments = first :: rest2) :
    messageReceivedHandler env opts msg1 s = messageReceivedHandler env opts msg2 s ∧
    replies (messageReceivedHandler env opts msg1 s).trace
      = replies (messageReceivedHandler env opts msg2 s).trace ∧
    (messageReceivedHandler env opts msg1 s).state
      = (messageReceivedHandler env opts msg2 s).state := by
  have h : messageReceivedHandler env opts msg1 s = messageReceivedHandler env opts msg2 s := by
    rw [messageReceivedHandler_head env opts msg1 first rest1 s h1,
      messageReceivedHandler_head env opts msg2 first rest2 s h2]
  exact ⟨h, by rw [h], by rw [h]⟩

/-- Witness of C18: a location followed by an image, with a text, against the
location alone. -/
theorem only_first_attachment_decides_witness :
    messageReceivedHandler (envOf (Except.ok respPothole)) userU
        ⟨"here", [some locationAttachment, some imageAttachment]⟩ pendingU
      = messageReceivedHandler (envOf (Except.ok respPothole)) userU
        ⟨"", [some locationAttachment]⟩ pendingU :=
  (only_first_attachment_decides (envOf (Except.ok respPothole)) userU
    ⟨"here", [some locationAttachment, some imageAttachment]⟩ ⟨"", [some locationAttachment]⟩
    (some locationAttachment) [some imageAttachment] [] pendingU rfl rfl).1


/-! ## Startup -/

/-- Claim C15. `main` panics exactly when one of `MESSENGER_VERIFY_TOKEN`,
`MESSENGER_ACCESS_TOKEN`, `CLARIFAI_CLIENT_ID`, `CLARIFAI_CLIENT_SECRET` is unset
or empty, or `cl.Connect` returns an error; when it panics the bot is not created
and nothing is served; when it does not panic it serves on `PORT`, or on `"3000"`
when `PORT` is unset or empty. -/
theorem startup_panics_iff_credential_missing (environ : String → Option String)
    (connect : String → String → Option String) :
    ((∃ r, (main environ connect).outcome = Outcome.panic r) ↔
      (unsetOrEmpty environ "MESSENGER_VERIFY_TOKEN" ∨
       unsetOrEmpty environ "MESSENGER_ACCESS_TOKEN" ∨
       unsetOrEmpty environ "CLARIFAI_CLIENT_ID" ∨
       unsetOrEmpty environ "CLARIFAI_CLIENT_SECRET" ∨
       ∃ err, connect (getenv environ "CLARIFAI_CLIENT_ID")
         (getenv environ "CLARIFAI_CLIENT_SECRET") = some err)) ∧
    ((∃ r, (main environ connect).outcome = Outcome.panic r) →
      ∀ eff ∈ (main environ connect).trace,
        (∀ a v, eff ≠ StartupEffect.newMessengerBot a v) ∧
        (∀ addr, eff ≠ StartupEffect.listenAndServe addr)) ∧
    ((main environ connect).outcome = Outcome.ret () →
      (unsetOrEmpty environ "PORT" →
        StartupEffect.listenAndServe ":3000" ∈ (main environ connect).trace) ∧
      (∀ port, environ "PORT" = some port → port ≠ "" →
        StartupEffect.listenAndServe (":" ++ port) ∈ (main environ connect).trace)) := by
  simp only [← getenv_eq_empty_iff]
  unfold main
  by_cases h1 : getenv environ "MESSENGER_VERIFY_TOKEN" = ""
  · simp [h1]
  by_cases h2 : getenv environ "MESSENGER_ACCESS_TOKEN" = ""
  · simp [h1, h2]
  by_cases h3 : getenv environ "CLARIFAI_CLIENT_ID" = ""
  · simp [h1, h2, h3]
  by_cases h4 : getenv environ "CLARIFAI_CLIENT_SECRET" = ""
  · simp [h1, h2, h3, h4]
  cases hc : connect (getenv environ "CLARIFAI_CLIENT_ID")
      (getenv environ "CLARIFAI_CLIENT_SECRET") with
  | some err => simp [h1, h2, h3, h4, hc]
  | none =>
    simp only [h1, h2, h3, h4, hc, if_false, false_or]
    refine ⟨by simp, by simp, fun _ => ⟨?_, ?_⟩⟩
    · intro hp
      simp only [hp, if_true]
      have e : ":" ++ "3000" = ":3000" := by decide
      rw [e]
      simp
    · intro port hport hne
      have hg : getenv environ "PORT" = port := by
        unfold getenv
        rw [hport]
        rfl
      simp only [hg, hne, if_false]
      simp

/-- Witness of C15: the four credentials are set, `PORT` is not, and the
connection succeeds: `main` does not panic and serves on port 3000. -/
theorem startup_panics_iff_credential_missing_witness :
    StartupEffect.listenAndServe ":3000" ∈ (main environCredentials (fun _ _ => none)).trace :=
  ((startup_panics_iff_credential_missing environCredentials (fun _ _ => none)).2.2
    (by decide)).1 (Or.inl (by decide))

/-! ## Malformed image payloads -/

/-- Claim C16, at failing inputs: an image-first message whose payload is a map
without `"url"`, or with a number under `"url"`, makes `messageReceivedHandler`
panic in the type assertion `payload["url"].(string)`; no reply is sent. -/
theorem image_without_string_url_panics :
    (messageReceivedHandler (envOf (Except.ok respCar)) userU
      ⟨"", [some imageWithoutUrl]⟩ emptyState).outcome
      = Outcome.panic "interface conversion: interface is not string" ∧
    replies (messageReceivedHandler (envOf (Except.ok respCar)) userU
      ⟨"", [some imageWithoutUrl]⟩ emptyState).trace = [] ∧
    (messageReceivedHandler (envOf (Except.ok respCar)) userU
      ⟨"", [some imageNumericUrl]⟩ emptyState).outcome
      = Outcome.panic "interface conversion: interface is not string" ∧
    replies (messageReceivedHandler (envOf (Except.ok respCar)) userU
      ⟨"", [some imageNumericUrl]⟩ emptyState).trace = [] := by
  have h1 : (isPotholePicture (envOf (Except.ok respCar)) (some imageWithoutUrl)
      emptyState).outcome = Outcome.panic "interface conversion: interface is not string" := rfl
  have h2 : (isPotholePicture (envOf (Except.ok respCar)) (some imageNumericUrl)
      emptyState).outcome = Outcome.panic "interface conversion: interface is not string" := rfl
  refine ⟨?_, ?_, ?_, ?_⟩
  · rcases messageReceivedHandler_image_cases (envOf (Except.ok respCar)) userU
      ⟨"", [some imageWithoutUrl]⟩ imageWithoutUrl [] emptyState emptyState rfl rfl with
      ⟨r, g1, g2, _, _⟩ | ⟨b, e, g1, _⟩ | ⟨g1, _⟩ | ⟨g1, _⟩ <;> rw [h1] at g1 <;> cases g1
    exact g2
  · rcases messageReceivedHandler_image_cases (envOf (Except.ok respCar)) userU
      ⟨"", [some imageWithoutUrl]⟩ imageWithoutUrl [] emptyState emptyState rfl rfl with
      ⟨r, g1, _, _, g4⟩ | ⟨b, e, g1, _⟩ | ⟨g1, _⟩ | ⟨g1, _⟩ <;> rw [h1] at g1 <;> cases g1
    exact g4
  · rcases messageReceivedHandler_image_cases (envOf (Except.ok respCar)) userU
      ⟨"", [some imageNumericUrl]⟩ imageNumericUrl [] emptyState emptyState rfl rfl with
      ⟨r, g1, g2, _, _⟩ | ⟨b, e, g1, _⟩ | ⟨g1, _⟩ | ⟨g1, _⟩ <;> rw [h2] at g1 <;> cases g1
    exact g2
  · rcases messageReceivedHandler_image_cases (envOf (Except.ok respCar)) userU
      ⟨"", [some imageNumericUrl]⟩ imageNumericUrl [] emptyState emptyState rfl rfl with
      ⟨r, g1, _, _, g4⟩ | ⟨b, e, g1, _⟩ | ⟨g1, _⟩ | ⟨g1, _⟩ <;> rw [h2] at g1 <;> cases g1
    exact g4

/-- With a payload that is a map with a string under `"url"`, an image-first message
never makes the handler panic, whatever the classifier answers: it returns
normally after exactly one reply. -/
theorem well_formed_image_returns (env : Env) (opts : MessageOpts) (msg : ReceivedMessage)
    (a : Attachment) (rest : List (Option Attachment)) (s : State)
    (payload : List (String × Iface)) (url : String)
    (hm : msg.Attachments = some a :: rest) (ht : a.Typ = "image")
    (hp : a.Payload = Iface.obj payload) (hu : payload.lookup "url" = some (Iface.str url)) :
    (messageReceivedHandler env opts msg s).outcome = Outcome.ret () ∧
    ∃ text, replies (messageReceivedHandler env opts msg s).trace
      = [(opts.Sender.ID, text)] := by
  have hret : ∃ v, (isPotholePicture env (some a) s).outcome = Outcome.ret v := by
    rw [isPotholePicture_reached env a s payload url hp hu]
    exact ⟨_, rfl⟩
  obtain ⟨v, hv⟩ := hret
  rcases messageReceivedHandler_image_cases env opts msg a rest s s hm ht with
    ⟨r, g1, _⟩ | ⟨b, e, _, g2, _, g4⟩ | ⟨_, g2, _, g4⟩ | ⟨_, g2, _, g4⟩
  · rw [hv] at g1; cases g1
  · exact ⟨g2, _, g4⟩
  · exact ⟨g2, _, g4⟩
  · exact ⟨g2, _, g4⟩


/-! ## The scope of the lock -/

/-- Claim C17. In every execution of `messageReceivedHandler` each acquisition of
`stateMutex` surrounds exactly one map read, insert or delete and is released
before any collaborator call (classification, profile lookup, text reply). And
in every interleaving of concurrent invocations in which `Lock` waits for the
mutex, each map operation happens while its own invocation holds the mutex, and
no invocation calls a collaborator while it holds the mutex. -/
theorem lock_covers_one_map_operation (env : Env) (opts : MessageOpts) (msg : ReceivedMessage)
    (s : State) :
    lockScoped LockPhase.free (messageReceivedHandler env opts msg s).trace = true ∧
    ∀ (envs : Nat → Env) (senders : Nat → MessageOpts) (msgs : Nat → ReceivedMessage)
      (stores : Nat → State) (schedule : List Nat),
      ∀ entry ∈ Conc.exec schedule ⟨none, fun i =>
          (messageReceivedHandler (envs i) (senders i) (msgs i) (stores i)).trace⟩,
        heldAsRequired entry = true := by
  refine ⟨lockScoped_messageReceivedHandler env opts msg s, ?_⟩
  intro envs senders msgs stores schedule
  apply Conc.exec_safe
  intro i
  simp only [reduceCtorEq, if_false]
  exact lockScoped_messageReceivedHandler _ _ _ _

/-- Witness of C17: the handler of a pending user who sends an image while the
classifier times out takes the lock twice (read, delete), each time around one
map operation, with the classification and the reply outside. -/
theorem lock_covers_one_map_operation_witness :
    lockScoped LockPhase.free (messageReceivedHandler (envOf (Except.error "timeout")) userU
      ⟨"", [some imageAttachment]⟩ pendingU).trace = true ∧
    (messageReceivedHandler (envOf (Except.error "timeout")) userU
      ⟨"", [some imageAttachment]⟩ pendingU).trace =
      [Effect.lock, Effect.mapRead "U", Effect.unlock,
       Effect.lock, Effect.mapDelete "U", Effect.unlock,
       Effect.predict "Stuff" "http://example.org/road.jpg",
       Effect.sendText "U"
        "Sorry. I lost my glasses and I'm having trouble looking at the picture."] :=
  ⟨(lock_covers_one_map_operation (envOf (Except.error "timeout")) userU
      ⟨"", [some imageAttachment]⟩ pendingU).1, by decide⟩

/-- An interleaving of two invocations in which the second waits for the mutex while
the first reads the map, and the first sends its reply while the second holds the
mutex. -/
theorem twoInvocations_interleaving :
    (Conc.exec [0, 1, 0, 1, 0, 0, 1, 1, 1, 1, 0, 1, 1, 1] twoInvocations).map
        (fun entry => (entry.1, entry.2.2)) =
      [(0, none), (0, some 0), (0, some 0), (0, none), (1, none), (1, some 1), (1, some 1),
       (1, none), (0, some 1), (1, some 1), (1, some 1), (1, none)] := by
  decide


end Citybot
